import Mathlib

/-!
Verification of the controller-orchestration middleware:
shallow embedding of `ryu/app/middleware` (event stream, controller
manager, switch mappings, failover) and proofs of its specified
properties.

Conventions of the embedding:
* Python `dict`s keyed by strings become association lists
  (`List (String × β)`) with first-match lookup; insertion replaces the
  first occurrence or appends (Python dicts never hold a key twice).
* `datetime.utcnow()` timestamps become a `Nat` clock that is strictly
  increasing across operations.
* Fallible I/O performed by backends (ping results, gRPC connects,
  exceptions raised inside `_update_switch_info`) is an input to the
  model, supplied by the caller of the corresponding operation.
-/

/-- First-match lookup in an association list (Python `d.get(k)` / `k in d`). -/
def alookup {β : Type} : List (String × β) → String → Option β
  | [], _ => none
  | (k, v) :: rest, key => if k = key then some v else alookup rest key

/-- Replace the value at the first occurrence of `key`, or append a new
entry (Python `d[k] = v`). -/
def aupsert {β : Type} : List (String × β) → String → β → List (String × β)
  | [], key, v => [(key, v)]
  | (k, w) :: rest, key, v =>
    if k = key then (k, v) :: rest else (k, w) :: aupsert rest key v

/-- Remove every entry with the given key (Python `del d[k]`). -/
def aremove {β : Type} : List (String × β) → String → List (String × β)
  | [], _ => []
  | (k, w) :: rest, key =>
    if k = key then aremove rest key else (k, w) :: aremove rest key

theorem alookup_aupsert {β : Type} (l : List (String × β)) (k k' : String) (v : β) :
    alookup (aupsert l k v) k' = if k = k' then some v else alookup l k' := by
  induction l with
  | nil => simp [aupsert, alookup]
  | cons e rest ih =>
    obtain ⟨ek, ev⟩ := e
    by_cases hek : ek = k
    · subst hek
      by_cases hkk : ek = k' <;> simp [aupsert, alookup, hkk]
    · by_cases hek' : ek = k'
      · subst hek'
        have hk : ¬k = ek := fun h => hek h.symm
        simp [aupsert, alookup, hek, hk]
      · simp [aupsert, alookup, hek, hek', ih]

theorem alookup_aremove {β : Type} (l : List (String × β)) (k k' : String) :
    alookup (aremove l k) k' = if k = k' then none else alookup l k' := by
  induction l with
  | nil => simp [aremove, alookup]
  | cons e rest ih =>
    obtain ⟨ek, ev⟩ := e
    by_cases hek : ek = k
    · subst hek
      by_cases hkk : ek = k'
      · subst hkk
        simp [aremove, ih]
      · simp [aremove, alookup, hkk, ih]
    · by_cases hek' : ek = k'
      · subst hek'
        have hk : ¬k = ek := fun h => hek h.symm
        simp [aremove, alookup, hek, hk]
      · simp [aremove, alookup, hek, hek', ih]

theorem mem_aupsert {β : Type} {l : List (String × β)} {k : String} {v : β}
    {e : String × β} (he : e ∈ aupsert l k v) : e = (k, v) ∨ e ∈ l := by
  induction l with
  | nil => simpa [aupsert] using he
  | cons f rest ih =>
    obtain ⟨fk, fv⟩ := f
    by_cases hfk : fk = k
    · subst hfk
      rcases (by simpa [aupsert] using he) with h | h
      · exact Or.inl (by simp [h])
      · exact Or.inr (by simp [h])
    · rcases (by simpa [aupsert, hfk] using he) with h | h
      · exact Or.inr (by simp [h])
      · rcases ih h with h' | h'
        · exact Or.inl h'
        · exact Or.inr (by simp [h'])

theorem alookup_mem {β : Type} {l : List (String × β)} {k : String} {v : β}
    (h : alookup l k = some v) : (k, v) ∈ l := by
  induction l with
  | nil => simp [alookup] at h
  | cons e rest ih =>
    obtain ⟨ek, ev⟩ := e
    by_cases hek : ek = k
    · subst hek
      simp [alookup] at h
      simp [h]
    · simp [alookup, hek] at h
      exact List.mem_cons_of_mem _ (ih h)

/-! ## Event stream (`ryu/app/middleware/events/event_stream.py`) -/

/-- The `Event` dataclass: unified event representation. -/
structure Event where
  event_type : String
  source_controller : String
  source_type : String
  data : List (String × String)
  timestamp : Nat
  sequence_number : Nat
  priority : Nat
  metadata : List (String × String)
  deriving DecidableEq, Repr

/-- The `EventFilter`: conjunction of optional constraints; empty set matches all. -/
structure EventFilter where
  event_types : List String := []
  controller_ids : List String := []
  source_types : List String := []
  min_priority : Nat := 1
  custom_filter : Option (Event → Bool) := none

/-- The `EventFilter.matches`: the event passes every configured constraint. -/
def EventFilter.matches (f : EventFilter) (e : Event) : Bool :=
  (f.event_types.isEmpty || f.event_types.contains e.event_type) &&
  (f.controller_ids.isEmpty || f.controller_ids.contains e.source_controller) &&
  (f.source_types.isEmpty || f.source_types.contains e.source_type) &&
  decide (f.min_priority ≤ e.priority) &&
  (match f.custom_filter with
   | none => true
   | some g => g e)

/-- The `EventSubscriber`: the Python callback is modelled solely by whether it
raises on a given event (`raisesOn`); its other effects are external I/O. -/
structure EventSubscriber where
  subscriber_id : String
  raisesOn : Event → Bool
  filter : EventFilter
  event_count : Nat := 0
  last_event : Option Event := none
  active : Bool := true

/-- The `EventStream` state: bounded queue (head = oldest), history deque with
`maxlen`, monotone sequence counter, statistics, subscriber registry. The
`clock` models `datetime.utcnow()` ticks used for event timestamps. -/
structure EventStream where
  max_queue_size : Nat := 10000
  max_history_size : Nat := 1000
  auto_deactivate_failed_subscribers : Bool := true
  event_queue : List Event := []
  event_history : List Event := []
  sequence_counter : Nat := 0
  dropped_events : Nat := 0
  total_events : Nat := 0
  events_by_type : List (String × Nat) := []
  events_by_controller : List (String × Nat) := []
  events_by_source_type : List (String × Nat) := []
  subscribers : List EventSubscriber := []
  subscriber_count : Nat := 0
  clock : Nat := 0

/-- A fresh `EventStream(config)` with the two capacities taken from config. -/
def EventStream.init (qsize hsize : Nat) : EventStream :=
  { max_queue_size := qsize, max_history_size := hsize }

/-- The `asyncio.Queue.full()`: true iff `maxsize > 0` and `qsize() >= maxsize`. -/
def EventStream.queueFull (es : EventStream) : Bool :=
  decide (0 < es.max_queue_size ∧ es.max_queue_size ≤ es.event_queue.length)

/-- Arguments of one `publish_event` call. -/
structure PubInput where
  event_type : String
  source_controller : String
  source_type : String
  data : List (String × String) := []
  priority : Nat := 1
  metadata : List (String × String) := []
  deriving DecidableEq, Repr

/-- The `Event` constructed by `publish_event` for input `i`, with sequence
number `seq` (the timestamp clock ticks in lockstep with the counter). -/
def mkEvent (i : PubInput) (seq clock : Nat) : Event :=
  { event_type := i.event_type
    source_controller := i.source_controller
    source_type := i.source_type
    data := i.data
    timestamp := clock
    sequence_number := seq
    priority := i.priority
    metadata := i.metadata }

/-- The `EventStream.publish_event`: assign the next sequence number, and if the
queue is full first drop the oldest queued event (`get_nowait`) and count it,
then enqueue the new event. -/
def EventStream.publish_event (es : EventStream) (i : PubInput) : EventStream :=
  let seq := es.sequence_counter + 1
  let clock := es.clock + 1
  let e := mkEvent i seq clock
  let es1 := { es with sequence_counter := seq, clock := clock }
  let es2 :=
    if es.queueFull then
      { es1 with event_queue := es1.event_queue.tail
                 dropped_events := es1.dropped_events + 1 }
    else es1
  { es2 with event_queue := es2.event_queue ++ [e] }

/-- Append to a `deque(maxlen=maxlen)`: a full deque discards its leftmost
element. -/
def dequeAppend (maxlen : Nat) (h : List Event) (e : Event) : List Event :=
  if maxlen = 0 then []
  else if h.length < maxlen then h ++ [e] else h.tail ++ [e]

/-- Bump a `defaultdict(int)` counter. -/
def bumpCount (m : List (String × Nat)) (k : String) : List (String × Nat) :=
  match alookup m k with
  | some n => aupsert m k (n + 1)
  | none => aupsert m k 1

/-- The `EventStream._update_stats`. -/
def EventStream.update_stats (es : EventStream) (e : Event) : EventStream :=
  { es with total_events := es.total_events + 1
            events_by_type := bumpCount es.events_by_type e.event_type
            events_by_controller := bumpCount es.events_by_controller e.source_controller
            events_by_source_type := bumpCount es.events_by_source_type e.source_type }

/-- The `EventStream._distribute_event`: iterate over a snapshot of the
subscribers; skip inactive ones; on a filter match invoke the callback; a
raising callback is caught and (under the auto-deactivate policy) flips the
subscriber inactive; otherwise the delivery counters are updated. Each
subscriber is updated independently, so the loop is a `map`. -/
def deliverTo (autoDeactivate : Bool) (e : Event)
    (sub : EventSubscriber) : EventSubscriber :=
  if !sub.active then sub
  else if sub.filter.matches e then
    if sub.raisesOn e then
      if autoDeactivate then { sub with active := false } else sub
    else
      { sub with event_count := sub.event_count + 1, last_event := some e }
  else sub

/-- The loop body of `_distribute_event` applied to every subscriber of the
snapshot. -/
def distributeEvent (autoDeactivate : Bool) (subs : List EventSubscriber)
    (e : Event) : List EventSubscriber :=
  subs.map (deliverTo autoDeactivate e)

/-- One iteration of `_process_events`: dequeue, update stats, append to
history, distribute to subscribers. -/
def EventStream.processOne (es : EventStream) : EventStream :=
  match es.event_queue with
  | [] => es
  | e :: rest =>
    let es1 := { es with event_queue := rest }
    let es2 := es1.update_stats e
    let es3 := { es2 with
      event_history := dequeAppend es2.max_history_size es2.event_history e }
    { es3 with subscribers :=
        distributeEvent es3.auto_deactivate_failed_subscribers es3.subscribers e }

/-- Run `n` iterations of the consumer loop. -/
def EventStream.processSteps : Nat → EventStream → EventStream
  | 0, es => es
  | n + 1, es => EventStream.processSteps n es.processOne

/-- Drain the queue: the consumer loop runs until no event is pending. -/
def EventStream.processAllQueued (es : EventStream) : EventStream :=
  es.processSteps es.event_queue.length

/-- The `EventStream.subscribe`: fails when the id already exists. -/
def EventStream.subscribe (es : EventStream) (sid : String)
    (raisesOn : Event → Bool) (f : Option EventFilter) : EventStream × Bool :=
  if es.subscribers.any (fun s => s.subscriber_id == sid) then (es, false)
  else
    let sub : EventSubscriber :=
      { subscriber_id := sid, raisesOn := raisesOn
        filter := f.getD {} }
    let subs := es.subscribers ++ [sub]
    ({ es with subscribers := subs, subscriber_count := subs.length }, true)

/-- The `EventStream.get_recent_events`: filter the history, then Python
`events[-count:] if count > 0 else events`. -/
def EventStream.get_recent_events (es : EventStream) (count : Int)
    (f : Option EventFilter) : List Event :=
  let events := es.event_history
  let events :=
    match f with
    | none => events
    | some flt => events.filter (fun e => flt.matches e)
  if 0 < count then events.drop (events.length - count.toNat) else events

/-- Fold a list of publish calls into the stream (producer side only). -/
def EventStream.publishList (es : EventStream) (ins : List PubInput) : EventStream :=
  ins.foldl EventStream.publish_event es

/-- The events that a list of publish calls constructs, given the sequence
counter (= clock) value before the first of them. -/
def mkEvents : List PubInput → Nat → List Event
  | [], _ => []
  | i :: rest, n => mkEvent i (n + 1) (n + 1) :: mkEvents rest (n + 1)

/-! ## Controller data models (`ryu/app/middleware/models/controller_schemas.py`) -/

/-- The `ControllerType` enum. -/
inductive ControllerType where
  | ryu_openflow
  | p4runtime
  | custom
  deriving DecidableEq, Repr

/-- The `ControllerStatus` enum. -/
inductive ControllerStatus where
  | initializing
  | connected
  | disconnected
  | error
  | maintenance
  deriving DecidableEq, Repr

/-- The `HealthStatus` enum. -/
inductive HealthStatus where
  | healthy
  | degraded
  | unhealthy
  | unknown
  deriving DecidableEq, Repr

/-- Mutable runtime part of `ControllerInfo` (the immutable `config` is
carried by the registration call itself). -/
structure ControllerInfoM where
  status : ControllerStatus := .initializing
  health_status : HealthStatus := .unknown
  created_at : Nat := 0
  last_seen : Option Nat := none
  last_health_check : Option Nat := none
  assigned_switches : List String := []
  last_error : Option String := none
  error_count : Nat := 0
  deriving DecidableEq, Repr

/-- The `SwitchMapping` model. -/
structure SwitchMappingM where
  switch_id : String
  primary_controller : String
  backup_controllers : List String
  current_controller : String
  created_at : Nat
  last_updated : Nat
  failover_count : Nat := 0
  deriving DecidableEq, Repr

/-! ## Backend state (`sdn_backends/base.py`, `openflow_controller.py`,
`p4runtime_controller.py`)

The environment a backend meets at `initialize()` time is fixed at
creation: for the OpenFlow backend, whether `_update_switch_info` raises;
for the P4Runtime backend, the per-switch `connect()` outcomes. -/

/-- Which concrete backend class the instance is, with its I/O environment. -/
inductive BackendKind where
  | ryu (updateSwitchInfoRaises : Bool)
  | p4 (connectResults : List Bool)
  deriving DecidableEq, Repr

/-- The backend fields the engine claims depend on: `connected`, the
`ControllerHealth` error counter/last error, and whether the manager's
packet-in handler has been added via `subscribe_packet_in`. -/
structure BackendState where
  kind : BackendKind
  connected : Bool := false
  healthErrorCount : Nat := 0
  healthLastError : Option String := none
  managerHandlerSubscribed : Bool := false
  deriving DecidableEq, Repr

/-- The `reset_error_count` (base.py): clear the health error counter and text. -/
def BackendState.reset_error_count (b : BackendState) : BackendState :=
  { b with healthErrorCount := 0, healthLastError := none }

/-- Backend `initialize()`.
`RyuController`: sets `connected = True`, calls `reset_error_count`, then
`_update_switch_info`; an exception there is caught and returns `False`
(the earlier mutations persist).
`P4RuntimeController`: with no configured switches returns `True`
untouched; otherwise `connected = any(connection_results)`, the error
counter is reset only when some switch connected, and it returns `True`
either way. -/
def backendInit (b : BackendState) : BackendState × Bool :=
  match b.kind with
  | .ryu raises =>
    ({ b with connected := true, healthErrorCount := 0, healthLastError := none }, !raises)
  | .p4 results =>
    if results.isEmpty then (b, true)
    else
      let conn := results.any (fun r => r)
      let b1 := { b with connected := conn }
      if conn then (b1.reset_error_count, true) else (b1, true)

/-- Backend `shutdown()`: both implementations set `connected = False`. -/
def backendShutdown (b : BackendState) : BackendState :=
  { b with connected := false }

/-- The `subscribe_packet_in(self._handle_packet_in)`: both backends delegate to
`add_packet_in_callback`, which dedups. -/
def backendSubscribeManagerHandler (b : BackendState) : BackendState :=
  { b with managerHandlerSubscribed := true }

/-! ## Controller manager (`sdn_backends/controller_manager.py`) -/

/-- One `event_stream.publish_event(...)` call made by the engine:
its type/source/priority arguments, the `switch_id` entry of the data
payload when the payload has one, and the time of the call. -/
structure PubCall where
  event_type : String
  source_controller : String
  source_type : String
  priority : Nat
  data_switch_id : Option String
  time : Nat
  deriving DecidableEq, Repr

/-- Tagged result of an engine operation (`ResponseFormatter` status plus
`error_code` for errors). -/
inductive CallResult where
  | ok
  | err (code : String)
  deriving DecidableEq, Repr

/-- The `ControllerManager` state. `now` is the utcnow clock; `published`
records the publish calls issued to the event stream. -/
structure CMState where
  controllers : List (String × BackendState) := []
  controller_info : List (String × ControllerInfoM) := []
  switch_mappings : List (String × SwitchMappingM) := []
  max_health_failures : Nat := 3
  statsTotalControllers : Nat := 0
  statsActiveControllers : Nat := 0
  statsFailedControllers : Nat := 0
  statsFailoverCount : Nat := 0
  statsHealthChecks : Nat := 0
  published : List PubCall := []
  now : Nat := 0
  deriving DecidableEq, Repr

/-- The manager as constructed with the default configuration. -/
def initCM : CMState := {}

/-- Record a `publish_event` call. -/
def CMState.publish (s : CMState) (etype src stype : String) (prio : Nat)
    (dataSwitch : Option String) : CMState :=
  { s with published :=
      s.published ++ [⟨etype, src, stype, prio, dataSwitch, s.now⟩] }

/-- The `_create_controller_instance`: type dispatch; unsupported type gives
`None`. -/
def createControllerInstance (ctype : ControllerType) (kind : BackendKind) :
    Option BackendState :=
  match ctype with
  | .ryu_openflow => some { kind := kind }
  | .p4runtime => some { kind := kind }
  | .custom => none

/-- The `_start_controller`: run backend `initialize()`; on success set
status `connected`, stamp `last_seen`, bump the active counter and
subscribe the manager's packet-in handler; on failure set status `error`,
record "Failed to initialize" and bump the failed counter. Exceptions are
caught, so the function always returns a state. -/
def startController (s : CMState) (cid : String) : CMState :=
  match alookup s.controllers cid, alookup s.controller_info cid with
  | some b, some info =>
    let (b1, success) := backendInit b
    if success then
      { s with
        controllers := aupsert s.controllers cid (backendSubscribeManagerHandler b1)
        controller_info := aupsert s.controller_info cid
          { info with status := .connected, last_seen := some s.now }
        statsActiveControllers := s.statsActiveControllers + 1 }
    else
      { s with
        controllers := aupsert s.controllers cid b1
        controller_info := aupsert s.controller_info cid
          { info with status := .error, last_error := some "Failed to initialize" }
        statsFailedControllers := s.statsFailedControllers + 1 }
  | _, _ => s

/-- The `_stop_controller`: backend `shutdown()`, status `disconnected`,
guarded decrement of the active counter. -/
def stopController (s : CMState) (cid : String) : CMState :=
  match alookup s.controllers cid, alookup s.controller_info cid with
  | some b, some info =>
    { s with
      controllers := aupsert s.controllers cid (backendShutdown b)
      controller_info := aupsert s.controller_info cid
        { info with status := .disconnected }
      statsActiveControllers := s.statsActiveControllers - 1 }
  | _, _ => s

/-- The `register_controller`: reject a duplicate id; instantiate the backend
(unsupported type is an error); store fresh `ControllerInfo`; optionally
auto-start; publish `controller_registered`. -/
def registerController (s : CMState) (cid : String) (ctype : ControllerType)
    (kind : BackendKind) (autoStart : Bool) : CMState × CallResult :=
  if (alookup s.controllers cid).isSome then
    (s, .err "CONTROLLER_EXISTS")
  else
    match createControllerInstance ctype kind with
    | none => (s, .err "CONTROLLER_CREATION_FAILED")
    | some b =>
      let info : ControllerInfoM := { created_at := s.now }
      let s1 := { s with
        controllers := aupsert s.controllers cid b
        controller_info := aupsert s.controller_info cid info
        statsTotalControllers := s.statsTotalControllers + 1 }
      let s2 := if autoStart then startController s1 cid else s1
      (s2.publish "controller_registered" "controller_manager" "system" 1 none, .ok)

/-- The `_remove_controller_mappings`: delete every mapping whose primary or
current controller is the given id. -/
def removeMappingsFor (cid : String) :
    List (String × SwitchMappingM) → List (String × SwitchMappingM)
  | [] => []
  | e :: rest =>
    if e.2.primary_controller = cid ∨ e.2.current_controller = cid then
      removeMappingsFor cid rest
    else
      e :: removeMappingsFor cid rest

/-- The `deregister_controller`: not-found for an unknown id; stop the
controller if connected; remove its mappings; drop it from both
registries; publish `controller_deregistered`. -/
def deregisterController (s : CMState) (cid : String) : CMState × CallResult :=
  match alookup s.controllers cid with
  | none => (s, .err "CONTROLLER_NOT_FOUND")
  | some _ =>
    match alookup s.controller_info cid with
    | none => (s, .err "DEREGISTRATION_FAILED")
    | some info =>
      let s1 := if info.status = .connected then stopController s cid else s
      let s2 := { s1 with switch_mappings := removeMappingsFor cid s1.switch_mappings }
      let s3 := { s2 with
        controllers := aremove s2.controllers cid
        controller_info := aremove s2.controller_info cid
        statsTotalControllers := s2.statsTotalControllers - 1 }
      (s3.publish "controller_deregistered" "controller_manager" "system" 1 none, .ok)

/-- The `map_switch_to_controller`: all referenced controllers must exist; the
fresh mapping has `current_controller = primary` and `failover_count = 0` and
overwrites any existing mapping for the switch; publish `switch_mapped`. -/
def mapSwitchToController (s : CMState) (sw primary : String)
    (backups : List String) : CMState × CallResult :=
  if (alookup s.controllers primary).isNone then
    (s, .err "CONTROLLER_NOT_FOUND")
  else if backups.any (fun b => (alookup s.controllers b).isNone) then
    (s, .err "CONTROLLER_NOT_FOUND")
  else
    let m : SwitchMappingM :=
      { switch_id := sw, primary_controller := primary
        backup_controllers := backups, current_controller := primary
        created_at := s.now, last_updated := s.now }
    let s1 := { s with switch_mappings := aupsert s.switch_mappings sw m }
    let s2 :=
      match alookup s1.controller_info primary with
      | some i =>
        { s1 with controller_info := (aupsert s1.controller_info primary
            { i with assigned_switches := i.assigned_switches ++ [sw] }) }
      | none => s1
    (s2.publish "switch_mapped" "controller_manager" "system" 1 (some sw), .ok)

/-- Is this backup id registered with `health_status == HEALTHY`? -/
def healthyIn (info : List (String × ControllerInfoM)) (cid : String) : Bool :=
  match alookup info cid with
  | some i => decide (i.health_status = HealthStatus.healthy)
  | none => false

/-- The `_perform_switch_failover`: pick the first backup (in listed order) that
is registered and healthy; with none, log and change nothing; otherwise
update the mapping (current controller, failover count, `last_updated`),
bump the failover statistic and publish `switch_failover` at priority 3. -/
def performSwitchFailover (s : CMState) (sw : String)
    (failedId : String) : CMState :=
  match alookup s.switch_mappings sw with
  | none => s
  | some m =>
    match m.backup_controllers.find? (fun b => healthyIn s.controller_info b) with
    | none => s
    | some nb =>
      let m1 := { m with current_controller := nb
                         failover_count := m.failover_count + 1
                         last_updated := s.now }
      let s1 := { s with switch_mappings := aupsert s.switch_mappings sw m1
                         statsFailoverCount := s.statsFailoverCount + 1 }
      s1.publish "switch_failover" "controller_manager" "system" 3 (some sw)

/-- The `_handle_controller_failure`: failover every switch whose current
controller is the failed one. -/
def handleControllerFailure (s : CMState) (failedId : String) : CMState :=
  let affected :=
    (s.switch_mappings.filter
      (fun e => e.2.current_controller == failedId)).map (fun e => e.1)
  affected.foldl (fun st sw => performSwitchFailover st sw failedId) s

/-- One iteration of `_perform_health_checks` for one controller. The input
`pingSuccess` is the outcome of the backend's `ping()`; the backend-side
`health_check()` combines it with `connected` and updates its own health
record, then the manager updates `ControllerInfo` and, at
`max_health_failures` consecutive failures, triggers automatic failover. -/
def healthCheckOne (s : CMState) (cid : String) (pingSuccess : Bool) : CMState :=
  match alookup s.controllers cid with
  | none => s
  | some b =>
    let isHealthy := pingSuccess && b.connected
    let b1 :=
      if isHealthy then { b with healthLastError := none }
      else { b with healthErrorCount := b.healthErrorCount + 1
                    healthLastError := some "Ping failed or not connected" }
    let s1 := { s with controllers := aupsert s.controllers cid b1 }
    let s2 :=
      match alookup s1.controller_info cid with
      | none => s1
      | some i =>
        if isHealthy then
          { s1 with controller_info := (aupsert s1.controller_info cid
              { i with last_health_check := some s1.now
                       health_status := .healthy
                       last_seen := some s1.now
                       error_count := 0 }) }
        else
          let i1 := { i with last_health_check := some s1.now
                             health_status := HealthStatus.unhealthy
                             error_count := i.error_count + 1
                             last_error := b1.healthLastError }
          let s3 := { s1 with controller_info := aupsert s1.controller_info cid i1 }
          if s3.max_health_failures ≤ i1.error_count then
            handleControllerFailure s3 cid
          else s3
    { s2 with statsHealthChecks := s2.statsHealthChecks + 1 }

/-- Commit step of the REST `perform_switch_failover` handler: update the
mapping, publish `manual_failover` at priority 3, bump the failover
statistic. -/
def manualFailoverCommit (s : CMState) (sw : String) (m : SwitchMappingM)
    (target : String) : CMState :=
  let m1 := { m with current_controller := target
                     failover_count := m.failover_count + 1
                     last_updated := s.now }
  let s1 := { s with switch_mappings := aupsert s.switch_mappings sw m1 }
  let s2 := s1.publish "manual_failover" "controller_manager" "system" 3 (some sw)
  { s2 with statsFailoverCount := s2.statsFailoverCount + 1 }

/-- REST `perform_switch_failover` (manual failover): the switch must be
mapped; an explicit target must exist and be healthy (it is *not* checked
against the mapping's primary/backup set); without an explicit target the
first healthy backup in listed order is chosen. -/
def manualFailover (s : CMState) (sw : String) (target : Option String) :
    CMState × CallResult :=
  match alookup s.switch_mappings sw with
  | none => (s, .err "MAPPING_NOT_FOUND")
  | some m =>
    match target with
    | some t =>
      if (alookup s.controllers t).isNone then
        (s, .err "CONTROLLER_NOT_FOUND")
      else
        match alookup s.controller_info t with
        | some i =>
          if i.health_status = HealthStatus.healthy then
            (manualFailoverCommit s sw m t, .ok)
          else (s, .err "CONTROLLER_UNHEALTHY")
        | none => (s, .err "CONTROLLER_UNHEALTHY")
    | none =>
      match m.backup_controllers.find? (fun b => healthyIn s.controller_info b) with
      | none => (s, .err "NO_BACKUP_AVAILABLE")
      | some t => (manualFailoverCommit s sw m t, .ok)

/-! ## Operation traces

External requests and health-loop iterations, with the I/O outcomes they
observe. `step` bumps the utcnow clock once per operation. -/

/-- One engine operation. -/
inductive Op where
  | register (cid : String) (ctype : ControllerType) (kind : BackendKind)
      (autoStart : Bool)
  | deregister (cid : String)
  | mapSwitch (sw primary : String) (backups : List String)
  | healthCheck (cid : String) (pingSuccess : Bool)
  | manualFailover (sw : String) (target : Option String)
  deriving DecidableEq, Repr

/-- Apply one operation. The boolean flags whether the operation stayed
inside the documented failover discipline: a manual failover that commits
an *explicit* target outside the mapping's primary/backup set is flagged
`false`; everything else is `true`. -/
def stepChecked (s : CMState) (op : Op) : CMState × Bool :=
  let s0 := { s with now := s.now + 1 }
  match op with
  | .register cid ctype kind autoStart =>
    ((registerController s0 cid ctype kind autoStart).1, true)
  | .deregister cid => ((deregisterController s0 cid).1, true)
  | .mapSwitch sw primary backups =>
    ((mapSwitchToController s0 sw primary backups).1, true)
  | .healthCheck cid ping => (healthCheckOne s0 cid ping, true)
  | .manualFailover sw target =>
    let (s1, res) := manualFailover s0 sw target
    let ok :=
      match target, alookup s0.switch_mappings sw with
      | some t, some m =>
        !(res == CallResult.ok) ||
          decide (t = m.primary_controller ∨ t ∈ m.backup_controllers)
      | _, _ => true
    (s1, ok)

/-- Apply one operation, ignoring the discipline flag. -/
def step (s : CMState) (op : Op) : CMState :=
  (stepChecked s op).1

/-- Run a trace from the fresh manager. -/
def run (ops : List Op) : CMState :=
  ops.foldl step initCM

/-- Accumulate one operation and conjoin its discipline flag. -/
def stepCheckedAcc (p : CMState × Bool) (op : Op) : CMState × Bool :=
  ((stepChecked p.1 op).1, p.2 && (stepChecked p.1 op).2)

/-- Run a trace from the fresh manager, conjoining the discipline flags. -/
def runChecked (ops : List Op) : CMState × Bool :=
  ops.foldl stepCheckedAcc (initCM, true)

/-! ## Generic helper lemmas -/

theorem alookup_of_mem_nodup {β : Type} {l : List (String × β)} {k : String} {v : β}
    (hnd : (l.map (fun e => e.1)).Nodup) (hm : (k, v) ∈ l) :
    alookup l k = some v := by
  induction l with
  | nil => simp at hm
  | cons e rest ih =>
    obtain ⟨ek, ev⟩ := e
    simp only [List.map_cons, List.nodup_cons] at hnd
    rcases List.mem_cons.mp hm with h | h
    · cases h
      simp [alookup]
    · have hk : ek ≠ k := by
        intro hek
        exact hnd.1 (hek ▸ (List.mem_map.mpr ⟨(k, v), h, rfl⟩))
      simp [alookup, hk, ih hnd.2 h]

theorem mem_removeMappingsFor {X : String} {l : List (String × SwitchMappingM)}
    {e : String × SwitchMappingM} :
    e ∈ removeMappingsFor X l ↔
      e ∈ l ∧ ¬(e.2.primary_controller = X ∨ e.2.current_controller = X) := by
  induction l with
  | nil => simp [removeMappingsFor]
  | cons f rest ih =>
    by_cases hf : f.2.primary_controller = X ∨ f.2.current_controller = X
    · simp only [removeMappingsFor, if_pos hf, ih, List.mem_cons]
      constructor
      · rintro ⟨h1, h2⟩; exact ⟨Or.inr h1, h2⟩
      · rintro ⟨h1 | h1, h2⟩
        · exact absurd (h1 ▸ hf) h2
        · exact ⟨h1, h2⟩
    · simp only [removeMappingsFor, if_neg hf, List.mem_cons, ih]
      constructor
      · rintro (h | ⟨h1, h2⟩)
        · exact ⟨Or.inl h, h ▸ hf⟩
        · exact ⟨Or.inr h1, h2⟩
      · rintro ⟨h1 | h1, h2⟩
        · exact Or.inl h1
        · exact Or.inr ⟨h1, h2⟩

theorem keys_aupsert_sub {β : Type} (l : List (String × β)) (k : String) (v : β) :
    ∀ x ∈ (aupsert l k v).map (fun e => e.1), x = k ∨ x ∈ l.map (fun e => e.1) := by
  intro x hx
  obtain ⟨e, he, hx⟩ := List.mem_map.mp hx
  rcases mem_aupsert he with h | h
  · exact Or.inl (hx ▸ h ▸ rfl)
  · exact Or.inr (List.mem_map.mpr ⟨e, h, hx⟩)

theorem nodup_keys_aupsert {β : Type} {l : List (String × β)} (k : String) (v : β)
    (hnd : (l.map (fun e => e.1)).Nodup) :
    ((aupsert l k v).map (fun e => e.1)).Nodup := by
  induction l with
  | nil => simp [aupsert]
  | cons e rest ih =>
    obtain ⟨ek, ev⟩ := e
    simp only [List.map_cons, List.nodup_cons] at hnd
    by_cases hek : ek = k
    · subst hek
      simpa [aupsert, List.nodup_cons] using hnd
    · simp only [aupsert, if_neg hek, List.map_cons, List.nodup_cons]
      refine ⟨fun hmem => ?_, ih hnd.2⟩
      rcases keys_aupsert_sub rest k v ek hmem with h | h
      · exact hek h
      · exact hnd.1 h

theorem nodup_keys_removeMappingsFor {X : String} {l : List (String × SwitchMappingM)}
    (hnd : (l.map (fun e => e.1)).Nodup) :
    ((removeMappingsFor X l).map (fun e => e.1)).Nodup := by
  induction l with
  | nil => simp [removeMappingsFor]
  | cons f rest ih =>
    simp only [List.map_cons, List.nodup_cons] at hnd
    by_cases hf : f.2.primary_controller = X ∨ f.2.current_controller = X
    · simpa [removeMappingsFor, if_pos hf] using ih hnd.2
    · simp only [removeMappingsFor, if_neg hf, List.map_cons, List.nodup_cons]
      refine ⟨fun hmem => ?_, ih hnd.2⟩
      obtain ⟨e, he, hx⟩ := List.mem_map.mp hmem
      exact hnd.1 (List.mem_map.mpr ⟨e, (mem_removeMappingsFor.mp he).1, hx⟩)

theorem alookup_removeMappingsFor_nodup {X sw : String}
    {l : List (String × SwitchMappingM)} {m : SwitchMappingM}
    (hnd : (l.map (fun e => e.1)).Nodup)
    (h : alookup (removeMappingsFor X l) sw = some m) :
    alookup l sw = some m := by
  have hm := alookup_mem h
  exact alookup_of_mem_nodup hnd (mem_removeMappingsFor.mp hm).1

/-! ## Claim C10 -/

/-- The first two lines of `get_recent_events`: the (optionally filtered)
history. -/
def filteredHistory (es : EventStream) (f : Option EventFilter) : List Event :=
  match f with
  | none => es.event_history
  | some flt => es.event_history.filter (fun e => flt.matches e)

/-- Claim C10: `get_recent_events` called with `count <= 0` returns the
entire (filtered) history rather than an empty list; only for `count > 0`
is the result truncated to the `count` most-recent events (the suffix of
the filtered history of length `min count length`). -/
theorem get_recent_events_count_semantics (es : EventStream) (count : Int)
    (f : Option EventFilter) :
    (count ≤ 0 → es.get_recent_events count f = filteredHistory es f) ∧
    (0 < count → es.get_recent_events count f =
      (filteredHistory es f).drop ((filteredHistory es f).length - count.toNat)) := by
  constructor
  · intro h
    simp only [EventStream.get_recent_events, filteredHistory]
    rw [if_neg (not_lt.mpr h)]
  · intro h
    simp only [EventStream.get_recent_events, filteredHistory]
    rw [if_pos h]

/-- Witness for C10 at a concrete stream, count `-1` and count `2`. -/
theorem get_recent_events_count_semantics_witness :
    (({ event_history := [⟨"a", "c", "s", [], 1, 1, 1, []⟩,
                          ⟨"b", "c", "s", [], 2, 2, 1, []⟩] } :
        EventStream).get_recent_events (-1) none =
      filteredHistory { event_history := [⟨"a", "c", "s", [], 1, 1, 1, []⟩,
                                          ⟨"b", "c", "s", [], 2, 2, 1, []⟩] } none) ∧
    (({ event_history := [⟨"a", "c", "s", [], 1, 1, 1, []⟩,
                          ⟨"b", "c", "s", [], 2, 2, 1, []⟩] } :
        EventStream).get_recent_events 1 none =
      (filteredHistory { event_history := [⟨"a", "c", "s", [], 1, 1, 1, []⟩,
                                           ⟨"b", "c", "s", [], 2, 2, 1, []⟩] } none).drop
        ((filteredHistory { event_history := [⟨"a", "c", "s", [], 1, 1, 1, []⟩,
                                              ⟨"b", "c", "s", [], 2, 2, 1, []⟩] } none).length - (1 : Int).toNat)) :=
  ⟨(get_recent_events_count_semantics _ (-1) none).1 (by decide),
   (get_recent_events_count_semantics _ 1 none).2 (by decide)⟩

/-! ## Claim C5 -/

/-- Claim C5: when automatic failover for a switch finds that every listed
backup controller fails the registered-and-healthy test, the whole manager
state is returned unchanged: the mapping keeps its `current_controller`,
`failover_count` and `last_updated`, and no event is published. -/
theorem failover_no_healthy_backup_no_change (s : CMState) (sw failedId : String)
    (m : SwitchMappingM)
    (hm : alookup s.switch_mappings sw = some m)
    (hb : ∀ b ∈ m.backup_controllers, healthyIn s.controller_info b = false) :
    performSwitchFailover s sw failedId = s := by
  have hfind : m.backup_controllers.find?
      (fun b => healthyIn s.controller_info b) = none := by
    apply List.find?_eq_none.mpr
    intro b hbm
    simp [hb b hbm]
  simp only [performSwitchFailover, hm, hfind]

/-- An unhealthy `ControllerInfo` used in the C5 scenario. -/
def c5infoB : ControllerInfoM :=
  { health_status := HealthStatus.unhealthy }

/-- The C5 scenario mapping: two backups, one unhealthy, one unregistered. -/
def c5map : SwitchMappingM :=
  { switch_id := "s", primary_controller := "A"
    backup_controllers := ["B", "C"], current_controller := "A"
    created_at := 0, last_updated := 0 }

/-- The C5 scenario manager state. -/
def c5state : CMState :=
  { controller_info := [("B", c5infoB)]
    switch_mappings := [("s", c5map)], now := 7 }

/-- Witness for C5: a mapping with two backups, one unhealthy and one
unregistered. -/
theorem failover_no_healthy_backup_no_change_witness :
    performSwitchFailover c5state "s" "A" = c5state :=
  failover_no_healthy_backup_no_change c5state "s" "A" c5map
    (by decide) (by decide)

/-! ## Claim C4 -/

/-- Claim C4: with `backup_controllers = [B, C]`, `B` registered but
unhealthy and `C` registered and healthy, automatic failover selects `C`
(the first healthy backup in listed order), rewrites the mapping
(`current_controller := C`, incremented `failover_count`, fresh
`last_updated`), and publishes exactly one `switch_failover` event at
priority 3. -/
theorem failover_selects_first_healthy_backup (s : CMState)
    (sw failedId b c : String) (m : SwitchMappingM) (ib ic : ControllerInfoM)
    (hm : alookup s.switch_mappings sw = some m)
    (hbc : m.backup_controllers = [b, c])
    (hib : alookup s.controller_info b = some ib)
    (hbu : ib.health_status = HealthStatus.unhealthy)
    (hic : alookup s.controller_info c = some ic)
    (hch : ic.health_status = HealthStatus.healthy) :
    performSwitchFailover s sw failedId =
      { s with
        switch_mappings := (aupsert s.switch_mappings sw
          { m with current_controller := c,
                   failover_count := m.failover_count + 1,
                   last_updated := s.now })
        statsFailoverCount := s.statsFailoverCount + 1
        published := s.published ++
          [⟨"switch_failover", "controller_manager", "system", 3, some sw, s.now⟩] } := by
  have h1 : healthyIn s.controller_info b = false := by
    simp [healthyIn, hib, hbu]
  have h2 : healthyIn s.controller_info c = true := by
    simp [healthyIn, hic, hch]
  have hfind : m.backup_controllers.find?
      (fun x => healthyIn s.controller_info x) = some c := by
    rw [hbc]
    simp [List.find?, h1, h2]
  simp only [performSwitchFailover, hm, hfind]
  simp [CMState.publish, hbc]

/-- The unhealthy first backup of the C4 scenario. -/
def c4infoB : ControllerInfoM :=
  { health_status := HealthStatus.unhealthy }

/-- The healthy second backup of the C4 scenario. -/
def c4infoC : ControllerInfoM :=
  { health_status := HealthStatus.healthy }

/-- The C4 scenario mapping with `backup_controllers = [B, C]`. -/
def c4map : SwitchMappingM :=
  { switch_id := "s", primary_controller := "A"
    backup_controllers := ["B", "C"], current_controller := "A"
    created_at := 0, last_updated := 0 }

/-- The C4 scenario manager state. -/
def c4state : CMState :=
  { controller_info := [("B", c4infoB), ("C", c4infoC)]
    switch_mappings := [("s", c4map)], now := 7 }

/-- Witness for C4 at a concrete manager state. -/
theorem failover_selects_first_healthy_backup_witness :
    performSwitchFailover c4state "s" "A" =
      { c4state with
        switch_mappings := (aupsert c4state.switch_mappings "s"
          { c4map with current_controller := "C",
                       failover_count := c4map.failover_count + 1,
                       last_updated := c4state.now })
        statsFailoverCount := c4state.statsFailoverCount + 1
        published := c4state.published ++
          [⟨"switch_failover", "controller_manager", "system", 3, some "s",
            c4state.now⟩] } :=
  failover_selects_first_healthy_backup c4state "s" "A" "B" "C" c4map
    c4infoB c4infoC (by decide) (by decide) (by decide) (by decide)
    (by decide) (by decide)

/-! ## Claim C8 -/

/-- Claim C8: during `_distribute_event`, a raising subscriber callback is
caught: distribution reaches every position of the snapshot regardless
(each position `i` is updated independently by `deliverTo`), an active
matching non-raising subscriber has its delivery counter bumped and the
event recorded, and an active matching raising subscriber is, under the
default auto-deactivate policy, flipped inactive without receiving credit
for the event — while staying at its position in the registry (same id,
registry length unchanged, nothing removed). -/
theorem distribute_event_crash_isolation (subs : List EventSubscriber)
    (e : Event) (i : Nat) (sub : EventSubscriber)
    (hsub : subs[i]? = some sub) :
    (distributeEvent true subs e).length = subs.length ∧
    (distributeEvent true subs e)[i]? = some (deliverTo true e sub) ∧
    (deliverTo true e sub).subscriber_id = sub.subscriber_id ∧
    (sub.active = true → sub.filter.matches e = true → sub.raisesOn e = true →
      (deliverTo true e sub).active = false ∧
      (deliverTo true e sub).event_count = sub.event_count) ∧
    (sub.active = true → sub.filter.matches e = true → sub.raisesOn e = false →
      (deliverTo true e sub).event_count = sub.event_count + 1 ∧
      (deliverTo true e sub).last_event = some e ∧
      (deliverTo true e sub).active = true) := by
  refine ⟨List.length_map _ _, ?_, ?_, ?_, ?_⟩
  · rw [distributeEvent, List.getElem?_map, hsub]
    rfl
  · unfold deliverTo
    by_cases ha : sub.active <;>
      by_cases hf : sub.filter.matches e <;>
        by_cases hr : sub.raisesOn e <;> simp [ha, hf, hr]
  · intro ha hf hr
    simp [deliverTo, ha, hf, hr]
  · intro ha hf hr
    simp [deliverTo, ha, hf, hr]

/-- A subscriber whose callback raises on every event (C8 scenario). -/
def c8crasher : EventSubscriber :=
  { subscriber_id := "crash", raisesOn := fun _ => true, filter := {} }

/-- A well-behaved subscriber (C8 scenario). -/
def c8receiver : EventSubscriber :=
  { subscriber_id := "recv", raisesOn := fun _ => false, filter := {} }

/-- The event distributed in the C8 scenario. -/
def c8event : Event :=
  ⟨"switch_failover", "controller_manager", "system", [], 1, 1, 3, []⟩

/-- Witness for C8: the raiser at position 0 is deactivated in place and the
subscriber after it still receives the event. -/
theorem distribute_event_crash_isolation_witness :
    ((distributeEvent true [c8crasher, c8receiver] c8event).length =
       [c8crasher, c8receiver].length ∧
     (distributeEvent true [c8crasher, c8receiver] c8event)[0]? =
       some (deliverTo true c8event c8crasher) ∧
     (deliverTo true c8event c8crasher).subscriber_id = c8crasher.subscriber_id ∧
     (c8crasher.active = true → c8crasher.filter.matches c8event = true →
       c8crasher.raisesOn c8event = true →
       (deliverTo true c8event c8crasher).active = false ∧
       (deliverTo true c8event c8crasher).event_count = c8crasher.event_count) ∧
     (c8crasher.active = true → c8crasher.filter.matches c8event = true →
       c8crasher.raisesOn c8event = false →
       (deliverTo true c8event c8crasher).event_count = c8crasher.event_count + 1 ∧
       (deliverTo true c8event c8crasher).last_event = some c8event ∧
       (deliverTo true c8event c8crasher).active = true)) ∧
    ((deliverTo true c8event c8receiver).event_count =
       c8receiver.event_count + 1 ∧
     (deliverTo true c8event c8receiver).last_event = some c8event ∧
     (deliverTo true c8event c8receiver).active = true) :=
  ⟨distribute_event_crash_isolation [c8crasher, c8receiver] c8event 0 c8crasher rfl,
   (distribute_event_crash_isolation [c8crasher, c8receiver] c8event 1 c8receiver
      rfl).2.2.2.2 rfl rfl rfl⟩

/-! ## Claim C9 -/

/-- The `backendInit` leaves the error counter at zero for the OpenFlow
backend (its `initialize` calls `reset_error_count` before anything can
raise). -/
theorem backendInit_resets_ryu (b : BackendState) (raises : Bool)
    (h : b.kind = BackendKind.ryu raises) :
    (backendInit b).1.healthErrorCount = 0 := by
  simp [backendInit, h]

/-- The `backendInit` resets the error counter for a P4Runtime backend exactly
when some configured switch connects. -/
theorem backendInit_resets_p4 (b : BackendState) (results : List Bool)
    (h : b.kind = BackendKind.p4 results)
    (hany : results.any (fun r => r) = true) :
    (backendInit b).1.healthErrorCount = 0 := by
  have hne : ¬results.isEmpty := by
    intro h0
    rw [List.isEmpty_iff.mp h0] at hany
    simp at hany
  simp [backendInit, h, hne, hany, BackendState.reset_error_count]

/-- Claim C9 as stated: whenever `_start_controller` runs on a registered
controller and the backend's `initialize()` returns true, the status
becomes `connected`, the manager's packet-in handler is subscribed, *and
the backend's error counter is reset*; when `initialize()` returns false,
the status becomes `error` with the error text recorded and the
failed-controller counter is incremented (and no exception escapes: the
modelled function is total). -/
def claimC9Statement : Prop :=
  ∀ (s : CMState) (cid : String) (b : BackendState) (info : ControllerInfoM),
    alookup s.controllers cid = some b →
    alookup s.controller_info cid = some info →
    ((backendInit b).2 = true →
      alookup (startController s cid).controller_info cid =
        some { info with status := ControllerStatus.connected,
                         last_seen := some s.now } ∧
      (∀ b1, alookup (startController s cid).controllers cid = some b1 →
        b1.managerHandlerSubscribed = true ∧ b1.healthErrorCount = 0)) ∧
    ((backendInit b).2 = false →
      alookup (startController s cid).controller_info cid =
        some { info with status := ControllerStatus.error,
                         last_error := some "Failed to initialize" } ∧
      (startController s cid).statsFailedControllers =
        s.statsFailedControllers + 1)

/-- The P4Runtime backend of the C9 counterexample: one configured switch
whose connect fails, and an accumulated health error count of 5. -/
def c9badBackend : BackendState :=
  { kind := BackendKind.p4 [false], healthErrorCount := 5 }

/-- The manager state of the C9 counterexample. -/
def c9badState : CMState :=
  { controllers := [("P", c9badBackend)], controller_info := [("P", {})] }

/-- Counterexample to C9: a P4Runtime backend whose only configured switch
fails to connect. `initialize()` still returns true — `_start_controller`
marks the controller connected and subscribes the handler — but
`reset_error_count` is never called, so the prior error count 5 survives. -/
theorem start_controller_error_reset_counterexample : ¬ claimC9Statement := by
  intro h
  have h1 := (h c9badState "P" c9badBackend {} (by decide) (by decide)).1
    (by decide)
  have h2 := h1.2 { kind := BackendKind.p4 [false], healthErrorCount := 5,
                    managerHandlerSubscribed := true } (by decide)
  exact absurd h2.2 (by decide)

/-- Claim C9 amended: on `initialize()` returning true, `_start_controller`
sets status `connected`, stamps `last_seen`, subscribes the manager's
packet-in handler and stores the backend state that `initialize` left
behind; the error counter is reset only because (and only when) the
backend's own `initialize` does so — always for the OpenFlow backend, and
for the P4Runtime backend exactly when at least one configured switch
connects (`_start_controller` itself never resets it). On `initialize()`
returning false the status becomes `error` with "Failed to initialize"
recorded and the failed-controller counter incremented; no exception
escapes. -/
theorem start_controller_effects (s : CMState) (cid : String)
    (b : BackendState) (info : ControllerInfoM)
    (hb : alookup s.controllers cid = some b)
    (hi : alookup s.controller_info cid = some info) :
    ((backendInit b).2 = true →
      alookup (startController s cid).controller_info cid =
        some { info with status := ControllerStatus.connected,
                         last_seen := some s.now } ∧
      alookup (startController s cid).controllers cid =
        some (backendSubscribeManagerHandler (backendInit b).1) ∧
      (backendSubscribeManagerHandler (backendInit b).1).managerHandlerSubscribed
        = true ∧
      (∀ raises, b.kind = BackendKind.ryu raises →
        (backendInit b).1.healthErrorCount = 0) ∧
      (∀ results, b.kind = BackendKind.p4 results →
        results.any (fun r => r) = true →
        (backendInit b).1.healthErrorCount = 0)) ∧
    ((backendInit b).2 = false →
      alookup (startController s cid).controller_info cid =
        some { info with status := ControllerStatus.error,
                         last_error := some "Failed to initialize" } ∧
      alookup (startController s cid).controllers cid =
        some (backendInit b).1 ∧
      (startController s cid).statsFailedControllers =
        s.statsFailedControllers + 1) := by
  rcases hbi : backendInit b with ⟨b1, succ⟩
  constructor
  · intro hsucc
    change succ = true at hsucc
    subst hsucc
    have hstart : startController s cid =
        { s with
          controllers := (aupsert s.controllers cid
            (backendSubscribeManagerHandler b1))
          controller_info := (aupsert s.controller_info cid
            { info with status := ControllerStatus.connected,
                        last_seen := some s.now })
          statsActiveControllers := s.statsActiveControllers + 1 } := by
      simp [startController, hb, hi, hbi]
    refine ⟨?_, ?_, rfl, ?_, ?_⟩
    · rw [hstart]
      simp [alookup_aupsert]
    · rw [hstart]
      simp [alookup_aupsert]
    · intro raises hk
      simpa [hbi] using backendInit_resets_ryu b raises hk
    · intro results hk hany
      simpa [hbi] using backendInit_resets_p4 b results hk hany
  · intro hfail
    change succ = false at hfail
    subst hfail
    have hstart : startController s cid =
        { s with
          controllers := aupsert s.controllers cid b1
          controller_info := (aupsert s.controller_info cid
            { info with status := ControllerStatus.error,
                        last_error := some "Failed to initialize" })
          statsFailedControllers := s.statsFailedControllers + 1 } := by
      simp [startController, hb, hi, hbi]
    refine ⟨?_, ?_, ?_⟩
    · rw [hstart]
      simp [alookup_aupsert]
    · rw [hstart]
      simp [alookup_aupsert]
    · rw [hstart]

/-- The OpenFlow backend of the C9 witness. -/
def c9okBackend : BackendState :=
  { kind := BackendKind.ryu false, healthErrorCount := 2 }

/-- The manager state of the C9 witness. -/
def c9okState : CMState :=
  { controllers := [("R", c9okBackend)], controller_info := [("R", {})], now := 4 }

/-- Witness for the amended C9: starting a registered OpenFlow controller
whose `initialize` succeeds connects it and stores a backend with the error
counter reset and the handler subscribed. -/
theorem start_controller_effects_witness :
    alookup (startController c9okState "R").controller_info "R" =
      some { ({} : ControllerInfoM) with status := ControllerStatus.connected,
                                         last_seen := some c9okState.now } ∧
    (backendInit c9okBackend).1.healthErrorCount = 0 := by
  have h := (start_controller_effects c9okState "R" c9okBackend {}
    (by decide) (by decide)).1 (by decide)
  exact ⟨h.1, h.2.2.2.1 false rfl⟩

/-! ## Claim C6 -/

/-- Arguments of one `register_controller` call. -/
structure RegisterCall where
  cid : String
  ctype : ControllerType
  kind : BackendKind
  autoStart : Bool
  deriving DecidableEq, Repr

/-- One `register_controller` call. -/
def regStep (s : CMState) (r : RegisterCall) : CMState × CallResult :=
  registerController s r.cid r.ctype r.kind r.autoStart

/-- Run a sequence of `register_controller` calls. -/
def runRegState (s : CMState) : List RegisterCall → CMState
  | [] => s
  | r :: rest => runRegState (regStep s r).1 rest

/-- How often a controller id occurs in a sequence of register calls. -/
def countId (l : List RegisterCall) (x : String) : Nat :=
  (l.filter (fun q => q.cid == x)).length

/-- Claim C6 as stated: in every sequence of `register_controller` calls
that repeats a controller id, exactly the first call with that id succeeds,
and every subsequent call with it returns `CONTROLLER_EXISTS` leaving the
state unchanged. -/
def claimC6Statement : Prop :=
  ∀ (pre post : List RegisterCall) (r : RegisterCall),
    2 ≤ countId (pre ++ r :: post) r.cid →
    ((∀ q ∈ pre, q.cid ≠ r.cid) →
      (regStep (runRegState initCM pre) r).2 = CallResult.ok) ∧
    ((∃ q ∈ pre, q.cid = r.cid) →
      (regStep (runRegState initCM pre) r).2 =
        CallResult.err "CONTROLLER_EXISTS" ∧
      (regStep (runRegState initCM pre) r).1 = runRegState initCM pre)

/-- Counterexample to C6: two `register_controller` calls with the same id
and the unsupported type `custom`. The first call does *not* succeed (it
fails with `CONTROLLER_CREATION_FAILED` before anything is stored), so
"exactly the first such call succeeds" is false; the duplicate then also
fails with `CONTROLLER_CREATION_FAILED`, not `CONTROLLER_EXISTS`. -/
theorem register_first_call_succeeds_counterexample : ¬ claimC6Statement := by
  intro h
  have h1 := (h [] [⟨"X", ControllerType.custom, BackendKind.ryu false, true⟩]
      ⟨"X", ControllerType.custom, BackendKind.ryu false, true⟩ (by decide)).1
      (by decide)
  exact absurd h1 (by decide)

/-- The `_start_controller` never removes a controller from the registry. -/
theorem startController_keeps_controllers (s : CMState) (cid y : String)
    (h : (alookup s.controllers y).isSome) :
    (alookup (startController s cid).controllers y).isSome := by
  unfold startController
  cases hb : alookup s.controllers cid with
  | none => simpa using h
  | some b =>
    cases hi : alookup s.controller_info cid with
    | none => simpa using h
    | some info =>
      by_cases hsucc : (backendInit b).2 = true
      · by_cases hcy : cid = y <;> simp [hsucc, alookup_aupsert, hcy, h]
      · by_cases hcy : cid = y <;> simp [hsucc, alookup_aupsert, hcy, h]

/-- Claim C6 amended: a `register_controller` call whose id is already
registered returns `CONTROLLER_EXISTS` and leaves the whole manager state
unchanged; a successful call registers its id; registration never
unregisters any id (so once a call with id X succeeds, every later
register call with X hits the duplicate branch); and a call with the
unsupported controller type `custom` on a fresh id fails with
`CONTROLLER_CREATION_FAILED` and changes nothing — hence the *first* call
with an id need not be the successful one. -/
theorem register_duplicate_rejected :
    (∀ (s : CMState) (r : RegisterCall),
      (alookup s.controllers r.cid).isSome →
      regStep s r = (s, CallResult.err "CONTROLLER_EXISTS")) ∧
    (∀ (s : CMState) (r : RegisterCall),
      (regStep s r).2 = CallResult.ok →
      (alookup (regStep s r).1.controllers r.cid).isSome) ∧
    (∀ (s : CMState) (r : RegisterCall) (y : String),
      (alookup s.controllers y).isSome →
      (alookup (regStep s r).1.controllers y).isSome) ∧
    (∀ (s : CMState) (r : RegisterCall),
      (alookup s.controllers r.cid).isNone →
      r.ctype = ControllerType.custom →
      regStep s r = (s, CallResult.err "CONTROLLER_CREATION_FAILED")) := by
  refine ⟨?_, ?_, ?_, ?_⟩
  · intro s r h
    simp [regStep, registerController, h]
  · intro s r hok
    by_cases hdup : (alookup s.controllers r.cid).isSome
    · simp [regStep, registerController, hdup] at hok
    · cases hc : createControllerInstance r.ctype r.kind with
      | none => simp [regStep, registerController, hdup, hc] at hok
      | some b =>
        have hbase : (alookup (aupsert s.controllers r.cid b) r.cid).isSome := by
          simp [alookup_aupsert]
        simp only [regStep, registerController, hdup, if_neg, Bool.false_eq_true,
          ite_false, hc, CMState.publish]
        by_cases ha : r.autoStart
        · simp only [ha, ite_true]
          exact startController_keeps_controllers _ r.cid r.cid hbase
        · simp only [ha, ite_false]
          exact hbase
  · intro s r y h
    by_cases hdup : (alookup s.controllers r.cid).isSome
    · simpa [regStep, registerController, hdup] using h
    · cases hc : createControllerInstance r.ctype r.kind with
      | none => simpa [regStep, registerController, hdup, hc] using h
      | some b =>
        have hbase : (alookup (aupsert s.controllers r.cid b) y).isSome := by
          rw [alookup_aupsert]
          by_cases hcy : r.cid = y <;> simp [hcy, h]
        simp only [regStep, registerController, hdup, Bool.false_eq_true,
          ite_false, hc, CMState.publish]
        by_cases ha : r.autoStart
        · simp only [ha, ite_true]
          exact startController_keeps_controllers _ r.cid y hbase
        · simp only [ha, ite_false]
          exact hbase
  · intro s r hfresh hcustom
    have hdup : ¬(alookup s.controllers r.cid).isSome = true := by
      simp [Option.isNone_iff_eq_none.mp hfresh]
    simp [regStep, registerController, hdup, createControllerInstance, hcustom]

/-- The manager state after one successful registration of id `X`
(C6 witness scenario). -/
def c6state : CMState :=
  (regStep initCM ⟨"X", ControllerType.ryu_openflow, BackendKind.ryu false, true⟩).1

/-- Witness for the amended C6: a second registration of `X` is rejected
with `CONTROLLER_EXISTS` and the state is untouched. -/
theorem register_duplicate_rejected_witness :
    regStep c6state ⟨"X", ControllerType.p4runtime, BackendKind.p4 [], false⟩ =
      (c6state, CallResult.err "CONTROLLER_EXISTS") :=
  register_duplicate_rejected.1 c6state
    ⟨"X", ControllerType.p4runtime, BackendKind.p4 [], false⟩ (by decide)

/-! ## Claim C7 -/

/-- Claim C7: deregistering a registered controller `X` succeeds and (i)
removes exactly the switch mappings whose `primary_controller` or
`current_controller` is `X` — every other mapping entry survives verbatim,
so a mapping referencing `X` only among its backups is left intact with
`X` still listed there; (ii) removes `X` (and only `X`) from both registry
maps; (iii) publishes a `controller_deregistered` event. -/
theorem deregister_cleanup (s : CMState) (X : String)
    (b : BackendState) (info : ControllerInfoM)
    (hb : alookup s.controllers X = some b)
    (hi : alookup s.controller_info X = some info) :
    (deregisterController s X).2 = CallResult.ok ∧
    (deregisterController s X).1.switch_mappings =
      removeMappingsFor X s.switch_mappings ∧
    (∀ e, e ∈ (deregisterController s X).1.switch_mappings ↔
      (e ∈ s.switch_mappings ∧
        ¬(e.2.primary_controller = X ∨ e.2.current_controller = X))) ∧
    alookup (deregisterController s X).1.controllers X = none ∧
    alookup (deregisterController s X).1.controller_info X = none ∧
    (∀ y, y ≠ X →
      alookup (deregisterController s X).1.controllers y =
        alookup s.controllers y) ∧
    (∀ y, y ≠ X →
      alookup (deregisterController s X).1.controller_info y =
        alookup s.controller_info y) ∧
    (deregisterController s X).1.published = s.published ++
      [⟨"controller_deregistered", "controller_manager", "system", 1,
        none, s.now⟩] := by
  by_cases hst : info.status = ControllerStatus.connected
  · refine ⟨?_, ?_, ?_, ?_, ?_, ?_, ?_, ?_⟩
    · simp [deregisterController, hb, hi]
    · simp [deregisterController, hb, hi, hst, stopController, CMState.publish]
    · intro e
      simp [deregisterController, hb, hi, hst, stopController, CMState.publish,
        mem_removeMappingsFor]
    · simp [deregisterController, hb, hi, hst, stopController, CMState.publish,
        alookup_aremove]
    · simp [deregisterController, hb, hi, hst, stopController, CMState.publish,
        alookup_aremove]
    · intro y hy
      have hxy : ¬X = y := fun h => hy h.symm
      simp [deregisterController, hb, hi, hst, stopController, CMState.publish,
        alookup_aremove, alookup_aupsert, hxy]
    · intro y hy
      have hxy : ¬X = y := fun h => hy h.symm
      simp [deregisterController, hb, hi, hst, stopController, CMState.publish,
        alookup_aremove, alookup_aupsert, hxy]
    · simp [deregisterController, hb, hi, hst, stopController, CMState.publish]
  · refine ⟨?_, ?_, ?_, ?_, ?_, ?_, ?_, ?_⟩
    · simp [deregisterController, hb, hi]
    · simp [deregisterController, hb, hi, hst, CMState.publish]
    · intro e
      simp [deregisterController, hb, hi, hst, CMState.publish,
        mem_removeMappingsFor]
    · simp [deregisterController, hb, hi, hst, CMState.publish, alookup_aremove]
    · simp [deregisterController, hb, hi, hst, CMState.publish, alookup_aremove]
    · intro y hy
      have hxy : ¬X = y := fun h => hy h.symm
      simp [deregisterController, hb, hi, hst, CMState.publish,
        alookup_aremove, hxy]
    · intro y hy
      have hxy : ¬X = y := fun h => hy h.symm
      simp [deregisterController, hb, hi, hst, CMState.publish,
        alookup_aremove, hxy]
    · simp [deregisterController, hb, hi, hst, CMState.publish]

/-- A mapping that references X only as a backup (C7 witness scenario). -/
def c7mapBackup : SwitchMappingM :=
  { switch_id := "s2", primary_controller := "Y"
    backup_controllers := ["X"], current_controller := "Y"
    created_at := 0, last_updated := 0 }

/-- A mapping whose primary controller is X (C7 witness scenario). -/
def c7mapPrimary : SwitchMappingM :=
  { switch_id := "s1", primary_controller := "X"
    backup_controllers := [], current_controller := "X"
    created_at := 0, last_updated := 0 }

/-- The manager state of the C7 witness. -/
def c7state : CMState :=
  { controllers := [("X", { kind := BackendKind.ryu false }),
                    ("Y", { kind := BackendKind.ryu false })]
    controller_info := [("X", {}), ("Y", {})]
    switch_mappings := [("s1", c7mapPrimary), ("s2", c7mapBackup)]
    now := 3 }

/-- Witness for C7: deregistering X at the concrete state drops the
mapping whose primary/current is X, keeps the backup-only mapping intact,
and empties X from the registry. -/
theorem deregister_cleanup_witness :
    (deregisterController c7state "X").2 = CallResult.ok ∧
    (deregisterController c7state "X").1.switch_mappings =
      removeMappingsFor "X" c7state.switch_mappings ∧
    alookup (deregisterController c7state "X").1.controllers "X" = none ∧
    ((("s2", c7mapBackup) ∈ (deregisterController c7state "X").1.switch_mappings) ↔
      ((("s2", c7mapBackup) ∈ c7state.switch_mappings) ∧
        ¬(c7mapBackup.primary_controller = "X" ∨
          c7mapBackup.current_controller = "X"))) := by
  have h := deregister_cleanup c7state "X" { kind := BackendKind.ryu false } {}
    (by decide) (by decide)
  exact ⟨h.1, h.2.1, h.2.2.2.1, h.2.2.1 ("s2", c7mapBackup)⟩

/-! ## Claim C3 -/

theorem mkEvents_length (l : List PubInput) (n : Nat) :
    (mkEvents l n).length = l.length := by
  induction l generalizing n with
  | nil => rfl
  | cons i rest ih => simp [mkEvents, ih]

theorem mkEvents_snoc (l : List PubInput) (a : PubInput) (n : Nat) :
    mkEvents (l ++ [a]) n =
      mkEvents l n ++ [mkEvent a (n + l.length + 1) (n + l.length + 1)] := by
  induction l generalizing n with
  | nil => simp [mkEvents]
  | cons i rest ih =>
    show mkEvents (i :: (rest ++ [a])) n = _
    rw [mkEvents, ih (n + 1), mkEvents]
    have harg : n + 1 + rest.length + 1 = n + (i :: rest).length + 1 := by
      simp
      omega
    rw [harg]
    rfl

theorem mkEvents_map_seq (l : List PubInput) (n : Nat) :
    (mkEvents l n).map (fun e => e.sequence_number) =
      List.range' (n + 1) l.length := by
  induction l generalizing n with
  | nil => rfl
  | cons i rest ih =>
    simp only [mkEvents, List.map_cons, List.length_cons, List.range'_succ, ih]
    rfl

theorem range'_drop (m : Nat) : ∀ (s n : Nat),
    (List.range' s (m + n)).drop m = List.range' (s + m) n := by
  induction m with
  | zero => intro s n; simp
  | succ m ih =>
    intro s n
    have h1 : m + 1 + n = (m + n) + 1 := by omega
    rw [h1, List.range'_succ, List.drop_succ_cons, ih (s + 1) n]
    have h2 : s + 1 + m = s + (m + 1) := by omega
    rw [h2]

theorem publishList_snoc (es : EventStream) (l : List PubInput) (a : PubInput) :
    es.publishList (l ++ [a]) = (es.publishList l).publish_event a := by
  simp [EventStream.publishList, List.foldl_append]

/-- The `publish_event` on a non-full queue: enqueue only. -/
theorem publish_event_not_full (es : EventStream) (i : PubInput)
    (h : es.queueFull = false) :
    es.publish_event i =
      { es with
        sequence_counter := es.sequence_counter + 1
        clock := es.clock + 1
        event_queue := es.event_queue ++
          [mkEvent i (es.sequence_counter + 1) (es.clock + 1)] } := by
  simp [EventStream.publish_event, h]

/-- The `publish_event` on a full queue: drop the head (oldest), count it,
enqueue the new event. -/
theorem publish_event_full (es : EventStream) (i : PubInput)
    (h : es.queueFull = true) :
    es.publish_event i =
      { es with
        sequence_counter := es.sequence_counter + 1
        clock := es.clock + 1
        dropped_events := es.dropped_events + 1
        event_queue := es.event_queue.tail ++
          [mkEvent i (es.sequence_counter + 1) (es.clock + 1)] } := by
  simp [EventStream.publish_event, h]

/-- State of a fresh stream with queue capacity `c` after `publish_event`
has run once per element of `ins`, with no consumer dequeue in between:
the counter has advanced `ins.length` times, `max(0, ins.length - c)`
events were dropped, and the queue holds the most recent `min c length`
events in publish order. -/
theorem publishList_init_spec (c h : Nat) (hc : 1 ≤ c) (ins : List PubInput) :
    ((EventStream.init c h).publishList ins).max_queue_size = c ∧
    ((EventStream.init c h).publishList ins).max_history_size = h ∧
    ((EventStream.init c h).publishList ins).auto_deactivate_failed_subscribers
      = true ∧
    ((EventStream.init c h).publishList ins).sequence_counter = ins.length ∧
    ((EventStream.init c h).publishList ins).clock = ins.length ∧
    ((EventStream.init c h).publishList ins).event_history = [] ∧
    ((EventStream.init c h).publishList ins).subscribers = [] ∧
    ((EventStream.init c h).publishList ins).dropped_events =
      ins.length - min ins.length c ∧
    ((EventStream.init c h).publishList ins).event_queue =
      (mkEvents ins 0).drop (ins.length - min ins.length c) := by
  induction ins using List.reverseRecOn with
  | nil =>
    simp [EventStream.publishList, EventStream.init, mkEvents]
  | append_singleton l a ih =>
    obtain ⟨hq, hh, hauto, hseq, hclock, hhist, hsubs, hdrop, hqueue⟩ := ih
    rw [publishList_snoc]
    have hqlen : ((EventStream.init c h).publishList l).event_queue.length =
        min l.length c := by
      rw [hqueue, List.length_drop, mkEvents_length]
      omega
    by_cases hlc : l.length < c
    · have hnotfull : ((EventStream.init c h).publishList l).queueFull = false := by
        simp only [EventStream.queueFull, hq, hqlen,
          decide_eq_false_iff_not, not_and, not_le]
        intro _
        omega
      rw [publish_event_not_full _ _ hnotfull]
      refine ⟨hq, hh, hauto, by simp [hseq], by simp [hclock], hhist, hsubs,
        ?_, ?_⟩
      · show ((EventStream.init c h).publishList l).dropped_events = _
        rw [hdrop]
        simp only [List.length_append, List.length_cons, List.length_nil]
        omega
      · show ((EventStream.init c h).publishList l).event_queue ++ _ = _
        rw [hqueue, hseq, hclock, mkEvents_snoc]
        have h1 : l.length - min l.length c = 0 := by omega
        have h2 : (l ++ [a]).length - min (l ++ [a]).length c = 0 := by
          simp only [List.length_append, List.length_cons, List.length_nil]
          omega
        rw [h1, h2, List.drop_zero, List.drop_zero]
        simp
    · have hge : c ≤ l.length := by omega
      have hfull : ((EventStream.init c h).publishList l).queueFull = true := by
        simp only [EventStream.queueFull, hq, hqlen, decide_eq_true_eq]
        omega
      rw [publish_event_full _ _ hfull]
      refine ⟨hq, hh, hauto, by simp [hseq], by simp [hclock], hhist, hsubs,
        ?_, ?_⟩
      · show ((EventStream.init c h).publishList l).dropped_events + 1 = _
        rw [hdrop]
        simp only [List.length_append, List.length_cons, List.length_nil]
        omega
      · show ((EventStream.init c h).publishList l).event_queue.tail ++ _ = _
        rw [hqueue, hseq, hclock, List.tail_drop, mkEvents_snoc,
          List.drop_append_of_le_length (by
            simp only [List.length_append, List.length_cons, List.length_nil,
              mkEvents_length]
            omega)]
        have h3 : l.length - min l.length c + 1 =
            (l ++ [a]).length - min (l ++ [a]).length c := by
          simp only [List.length_append, List.length_cons, List.length_nil]
          omega
        rw [h3]
        simp

/-- Draining the queue with no subscribers: the consumer loop moves every
queued event into the history in order (no history overflow occurs when the
history has room for them all), and drops nothing. -/
theorem processSteps_drain : ∀ (q : List Event) (es : EventStream),
    es.event_queue = q → es.subscribers = [] →
    es.event_history.length + q.length ≤ es.max_history_size →
    (es.processSteps q.length).event_queue = [] ∧
    (es.processSteps q.length).event_history = es.event_history ++ q ∧
    (es.processSteps q.length).dropped_events = es.dropped_events ∧
    (es.processSteps q.length).max_history_size = es.max_history_size ∧
    (es.processSteps q.length).subscribers = [] := by
  intro q
  induction q with
  | nil =>
    intro es hq hs hlen
    simp [EventStream.processSteps, hq, hs]
  | cons e rest ih =>
    intro es hq hs hlen
    have hmax0 : ¬es.max_history_size = 0 := by
      simp only [List.length_cons] at hlen
      omega
    have hlt : es.event_history.length < es.max_history_size := by
      simp only [List.length_cons] at hlen
      omega
    have hone : es.processOne =
        { es with
          event_queue := rest
          total_events := es.total_events + 1
          events_by_type := bumpCount es.events_by_type e.event_type
          events_by_controller := bumpCount es.events_by_controller
            e.source_controller
          events_by_source_type := bumpCount es.events_by_source_type
            e.source_type
          event_history := es.event_history ++ [e]
          subscribers := [] } := by
      rw [EventStream.processOne.eq_def, hq]
      simp [EventStream.update_stats, dequeAppend, hmax0, hlt, hs,
        distributeEvent]
    have hstep : es.processSteps (e :: rest).length =
        es.processOne.processSteps rest.length := rfl
    have hrec := ih es.processOne (by rw [hone]) (by rw [hone])
      (by rw [hone]; simp only [List.length_append, List.length_cons] at hlen ⊢
          simp only [List.length_nil]
          omega)
    rw [hstep]
    obtain ⟨r1, r2, r3, r4, r5⟩ := hrec
    refine ⟨r1, ?_, ?_, ?_, r5⟩
    · rw [r2, hone]
      simp
    · rw [r3, hone]
    · rw [r4, hone]

/-- Claim C3 as stated: for *every* stream whose bounded queue has capacity
`c` (1 ≤ c) — whatever its history capacity `h` — publishing `c + k` events
(k ≥ 1) with no consumer dequeue in between drops exactly `k` events, the
survivors in the queue are the `c` newest (each overflow dropped the
oldest), and once the consumer has processed them `get_recent_events c`
returns those `c` most-recently-published events in increasing
sequence-number order. -/
def claimC3Statement : Prop :=
  ∀ (c h k : Nat) (ins : List PubInput), 1 ≤ c → 1 ≤ k →
    ins.length = c + k →
    ((EventStream.init c h).publishList ins).dropped_events = k ∧
    ((EventStream.init c h).publishList ins).event_queue =
      (mkEvents ins 0).drop k ∧
    ((EventStream.init c h).publishList ins).processAllQueued.get_recent_events
      (c : Int) none = (mkEvents ins 0).drop k ∧
    (((EventStream.init c h).publishList ins).processAllQueued.get_recent_events
      (c : Int) none).map (fun e => e.sequence_number) = List.range' (k + 1) c

/-- The three publish calls of the C3 counterexample. -/
def c3inputs : List PubInput :=
  [⟨"e1", "c", "s", [], 1, []⟩, ⟨"e2", "c", "s", [], 1, []⟩,
   ⟨"e3", "c", "s", [], 1, []⟩]

/-- Counterexample to C3: a stream with queue capacity 2 but history
capacity 1. Publishing 3 events drops exactly 1 as claimed, but after
processing, `get_recent_events 2` returns only the single event the
history ring buffer retained — not the 2 most recently published ones. -/
theorem backpressure_counterexample : ¬ claimC3Statement := by
  intro hcl
  have h := (hcl 2 1 1 c3inputs (by decide) (by decide) (by decide)).2.2.1
  exact absurd h (by decide)

/-- Claim C3 amended: the dropped-count and drop-oldest parts hold for
every history capacity, but the `get_recent_events c` part additionally
requires the history ring capacity `h` (default 1000) to be at least `c`:
a stream whose history capacity is below its queue capacity retains, and
therefore returns, only the `h` most recent processed events. -/
theorem event_stream_backpressure (c h k : Nat) (ins : List PubInput)
    (hc : 1 ≤ c) (hlen : ins.length = c + k) :
    ((EventStream.init c h).publishList ins).dropped_events = k ∧
    ((EventStream.init c h).publishList ins).event_queue =
      (mkEvents ins 0).drop k ∧
    (c ≤ h →
      ((EventStream.init c h).publishList ins).processAllQueued.get_recent_events
        (c : Int) none = (mkEvents ins 0).drop k ∧
      (((EventStream.init c h).publishList ins).processAllQueued.get_recent_events
        (c : Int) none).map (fun e => e.sequence_number) =
        List.range' (k + 1) c) := by
  obtain ⟨hq, hh, hauto, hseq, hclock, hhist, hsubs, hdrop, hqueue⟩ :=
    publishList_init_spec c h hc ins
  have hmin : min ins.length c = c := by omega
  have hdk : ins.length - min ins.length c = k := by omega
  rw [hdk] at hdrop hqueue
  refine ⟨hdrop, hqueue, ?_⟩
  intro hch
  have hqlen : ((EventStream.init c h).publishList ins).event_queue.length = c := by
    rw [hqueue, List.length_drop, mkEvents_length]
    omega
  have hdrain := processSteps_drain
    ((EventStream.init c h).publishList ins).event_queue
    ((EventStream.init c h).publishList ins) rfl hsubs
    (by rw [hhist, hqlen, hh]; simpa using hch)
  rw [EventStream.processAllQueued]
  obtain ⟨d1, d2, d3, d4, d5⟩ := hdrain
  have hrecent : (((EventStream.init c h).publishList
      ins).processSteps
        ((EventStream.init c h).publishList ins).event_queue.length).get_recent_events
      (c : Int) none = (mkEvents ins 0).drop k := by
    rw [EventStream.get_recent_events]
    simp only [Int.lt_iff_add_one_le]
    rw [if_pos (by exact_mod_cast hc)]
    rw [d2, hhist, List.nil_append, hqueue]
    have hlendrop : ((mkEvents ins 0).drop k).length = c := by
      rw [List.length_drop, mkEvents_length]
      omega
    rw [hlendrop]
    have : c - ((c : Int)).toNat = 0 := by simp
    rw [this, List.drop_zero]
  refine ⟨hrecent, ?_⟩
  rw [hrecent, List.map_drop, mkEvents_map_seq, hlen]
  have h01 : (0 : Nat) + 1 = 1 := rfl
  rw [h01, Nat.add_comm c k, range'_drop k 1 c, Nat.add_comm 1 k]

/-- Witness for the amended C3: capacity 2, history 1000, three publishes
(k = 1). -/
theorem event_stream_backpressure_witness :
    ((EventStream.init 2 1000).publishList c3inputs).dropped_events = 1 ∧
    ((EventStream.init 2 1000).publishList c3inputs).event_queue =
      (mkEvents c3inputs 0).drop 1 ∧
    ((EventStream.init 2 1000).publishList
        c3inputs).processAllQueued.get_recent_events (2 : Int) none =
      (mkEvents c3inputs 0).drop 1 ∧
    (((EventStream.init 2 1000).publishList
        c3inputs).processAllQueued.get_recent_events (2 : Int) none).map
      (fun e => e.sequence_number) = List.range' 2 2 := by
  have h := event_stream_backpressure 2 1000 1 c3inputs (by decide) (by decide)
  have h2 := h.2.2 (by omega)
  exact ⟨h.1, h.2.1, h2.1, h2.2⟩

/-! ## Claim C1 -/

/-- The mapping invariant from the spec, for one mapping. -/
def mappingOK (m : SwitchMappingM) : Prop :=
  m.current_controller = m.primary_controller ∨
  m.current_controller ∈ m.backup_controllers

theorem startController_fields (s : CMState) (cid : String) :
    (startController s cid).switch_mappings = s.switch_mappings ∧
    (startController s cid).published = s.published ∧
    (startController s cid).now = s.now := by
  unfold startController
  cases alookup s.controllers cid with
  | none => exact ⟨rfl, rfl, rfl⟩
  | some b =>
    cases alookup s.controller_info cid with
    | none => exact ⟨rfl, rfl, rfl⟩
    | some info =>
      by_cases hsucc : (backendInit b).2 = true <;> simp [hsucc]

theorem stopController_fields (s : CMState) (cid : String) :
    (stopController s cid).switch_mappings = s.switch_mappings ∧
    (stopController s cid).published = s.published ∧
    (stopController s cid).now = s.now := by
  unfold stopController
  cases alookup s.controllers cid with
  | none => exact ⟨rfl, rfl, rfl⟩
  | some b =>
    cases alookup s.controller_info cid with
    | none => exact ⟨rfl, rfl, rfl⟩
    | some info => exact ⟨rfl, rfl, rfl⟩

theorem registerController_shape (s : CMState) (cid : String)
    (t : ControllerType) (k : BackendKind) (a : Bool) :
    (registerController s cid t k a).1.switch_mappings = s.switch_mappings ∧
    (registerController s cid t k a).1.now = s.now ∧
    ((registerController s cid t k a).1.published = s.published ∨
     (registerController s cid t k a).1.published = s.published ++
       [⟨"controller_registered", "controller_manager", "system", 1,
         none, s.now⟩]) := by
  by_cases hdup : (alookup s.controllers cid).isSome
  · simp [registerController, hdup]
  · cases hc : createControllerInstance t k with
    | none => simp [registerController, hdup, hc]
    | some b =>
      by_cases ha : a
      · obtain ⟨h1, h2, h3⟩ := startController_fields
          { s with controllers := aupsert s.controllers cid b
                   controller_info := (aupsert s.controller_info cid
                     { created_at := s.now })
                   statsTotalControllers := s.statsTotalControllers + 1 } cid
        simp [registerController, hdup, hc, ha, CMState.publish, h1, h2, h3]
      · simp [registerController, hdup, hc, ha, CMState.publish]

theorem deregisterController_shape (s : CMState) (cid : String) :
    ((deregisterController s cid).1.switch_mappings = s.switch_mappings ∨
     (deregisterController s cid).1.switch_mappings =
       removeMappingsFor cid s.switch_mappings) ∧
    (deregisterController s cid).1.now = s.now ∧
    ((deregisterController s cid).1.published = s.published ∨
     (deregisterController s cid).1.published = s.published ++
       [⟨"controller_deregistered", "controller_manager", "system", 1,
         none, s.now⟩]) := by
  unfold deregisterController
  cases alookup s.controllers cid with
  | none => exact ⟨Or.inl rfl, rfl, Or.inl rfl⟩
  | some b =>
    cases alookup s.controller_info cid with
    | none => exact ⟨Or.inl rfl, rfl, Or.inl rfl⟩
    | some info =>
      by_cases hst : info.status = ControllerStatus.connected
      · obtain ⟨h1, h2, h3⟩ := stopController_fields s cid
        simp [hst, CMState.publish, h1, h2, h3]
      · simp [hst, CMState.publish]

theorem mapSwitchToController_shape (s : CMState) (sw p : String)
    (bl : List String) :
    (mapSwitchToController s sw p bl).1 = s ∨
    ((mapSwitchToController s sw p bl).1.switch_mappings =
       aupsert s.switch_mappings sw
         { switch_id := sw, primary_controller := p, backup_controllers := bl
           current_controller := p, created_at := s.now, last_updated := s.now
           failover_count := 0 } ∧
     (mapSwitchToController s sw p bl).1.now = s.now ∧
     (mapSwitchToController s sw p bl).1.published = s.published ++
       [⟨"switch_mapped", "controller_manager", "system", 1, some sw,
         s.now⟩]) := by
  by_cases h1 : (alookup s.controllers p).isNone
  · simp [mapSwitchToController, h1]
  · by_cases h2 : bl.any (fun b => (alookup s.controllers b).isNone)
    · simp [mapSwitchToController, h1, h2]
    · right
      cases h3 : alookup
          ({ s with switch_mappings := (aupsert s.switch_mappings sw
              { switch_id := sw, primary_controller := p
                backup_controllers := bl, current_controller := p
                created_at := s.now, last_updated := s.now
                failover_count := 0 }) } : CMState).controller_info p with
      | none => simp [mapSwitchToController, h1, h2, h3, CMState.publish]
      | some i => simp [mapSwitchToController, h1, h2, h3, CMState.publish]

/-- The intermediate state of a failed health check (error counter bumped,
status unhealthy) on which `_handle_controller_failure` is invoked. -/
def hcFailedState (s : CMState) (cid : String) (b : BackendState)
    (i : ControllerInfoM) : CMState :=
  { s with
    controllers := (aupsert s.controllers cid
      { b with healthErrorCount := b.healthErrorCount + 1
               healthLastError := some "Ping failed or not connected" })
    controller_info := (aupsert s.controller_info cid
      { i with last_health_check := some s.now
               health_status := HealthStatus.unhealthy
               error_count := i.error_count + 1
               last_error := some "Ping failed or not connected" }) }

theorem healthCheckOne_shape (s : CMState) (cid : String) (ping : Bool) :
    ((healthCheckOne s cid ping).switch_mappings = s.switch_mappings ∧
     (healthCheckOne s cid ping).published = s.published) ∨
    (∃ t : CMState,
      (healthCheckOne s cid ping).switch_mappings =
        (handleControllerFailure t cid).switch_mappings ∧
      (healthCheckOne s cid ping).published =
        (handleControllerFailure t cid).published ∧
      t.switch_mappings = s.switch_mappings ∧
      t.published = s.published ∧ t.now = s.now) := by
  cases hb : alookup s.controllers cid with
  | none => left; constructor <;> simp [healthCheckOne, hb]
  | some b =>
    cases hcon : (ping && b.connected) with
    | true =>
      cases hi : alookup s.controller_info cid with
      | none => left; constructor <;> simp [healthCheckOne, hb, hcon, hi]
      | some i => left; constructor <;> simp [healthCheckOne, hb, hcon, hi]
    | false =>
      cases hi : alookup s.controller_info cid with
      | none => left; constructor <;> simp [healthCheckOne, hb, hcon, hi]
      | some i =>
        by_cases hth : s.max_health_failures ≤ i.error_count + 1
        · right
          refine ⟨hcFailedState s cid b i, ?_, ?_, rfl, rfl, rfl⟩ <;>
            simp [healthCheckOne, hb, hcon, hi, hth, hcFailedState]
        · left
          constructor <;> simp [healthCheckOne, hb, hcon, hi, hth]

theorem performSwitchFailover_preserves_ok (s : CMState) (sw fid : String)
    (h : ∀ e ∈ s.switch_mappings, mappingOK e.2) :
    ∀ e ∈ (performSwitchFailover s sw fid).switch_mappings, mappingOK e.2 := by
  intro e he
  cases hm : alookup s.switch_mappings sw with
  | none =>
    rw [show performSwitchFailover s sw fid = s by
      simp [performSwitchFailover, hm]] at he
    exact h e he
  | some m =>
    cases hf : m.backup_controllers.find?
        (fun b => healthyIn s.controller_info b) with
    | none =>
      rw [show performSwitchFailover s sw fid = s by
        simp [performSwitchFailover, hm, hf]] at he
      exact h e he
    | some nb =>
      have heq : (performSwitchFailover s sw fid).switch_mappings =
          aupsert s.switch_mappings sw
            { m with current_controller := nb
                     failover_count := m.failover_count + 1
                     last_updated := s.now } := by
        simp [performSwitchFailover, hm, hf, CMState.publish]
      rw [heq] at he
      rcases mem_aupsert he with rfl | hmem
      · exact Or.inr (List.mem_of_find?_eq_some hf)
      · exact h e hmem

theorem foldFailover_preserves_ok (fid : String) : ∀ (l : List String)
    (s : CMState), (∀ e ∈ s.switch_mappings, mappingOK e.2) →
    ∀ e ∈ (l.foldl (fun st sw => performSwitchFailover st sw fid)
      s).switch_mappings, mappingOK e.2 := by
  intro l
  induction l with
  | nil => intro s h; exact h
  | cons x rest ih =>
    intro s h
    exact ih _ (performSwitchFailover_preserves_ok s x fid h)

theorem handleControllerFailure_preserves_ok (s : CMState) (fid : String)
    (h : ∀ e ∈ s.switch_mappings, mappingOK e.2) :
    ∀ e ∈ (handleControllerFailure s fid).switch_mappings, mappingOK e.2 := by
  unfold handleControllerFailure
  exact foldFailover_preserves_ok fid _ s h

theorem healthCheckOne_preserves_ok (s : CMState) (cid : String) (ping : Bool)
    (h : ∀ e ∈ s.switch_mappings, mappingOK e.2) :
    ∀ e ∈ (healthCheckOne s cid ping).switch_mappings, mappingOK e.2 := by
  rcases healthCheckOne_shape s cid ping with ⟨hm, -⟩ | ⟨t, hm, -, ht, -, -⟩
  · rw [hm]; exact h
  · rw [hm]
    apply handleControllerFailure_preserves_ok
    rw [ht]
    exact h

theorem manualFailoverCommit_preserves_ok (s : CMState) (sw : String)
    (m : SwitchMappingM) (tgt : String)
    (h : ∀ e ∈ s.switch_mappings, mappingOK e.2)
    (htgt : tgt = m.primary_controller ∨ tgt ∈ m.backup_controllers) :
    ∀ e ∈ (manualFailoverCommit s sw m tgt).switch_mappings, mappingOK e.2 := by
  intro e he
  simp only [manualFailoverCommit, CMState.publish] at he
  rcases mem_aupsert he with rfl | hmem
  · exact htgt
  · exact h e hmem

theorem manualFailover_shape (s : CMState) (sw : String) (tgt : Option String) :
    (manualFailover s sw tgt).1 = s ∨
    (∃ m t, alookup s.switch_mappings sw = some m ∧
      (manualFailover s sw tgt).1 = manualFailoverCommit s sw m t ∧
      (manualFailover s sw tgt).2 = CallResult.ok ∧
      (tgt = some t ∨ (tgt = none ∧ t ∈ m.backup_controllers))) := by
  cases hm : alookup s.switch_mappings sw with
  | none => left; simp [manualFailover, hm]
  | some m =>
    cases tgt with
    | none =>
      cases hf : m.backup_controllers.find?
          (fun b => healthyIn s.controller_info b) with
      | none => left; simp [manualFailover, hm, hf]
      | some t =>
        right
        refine ⟨m, t, rfl, ?_, ?_, Or.inr ⟨rfl, List.mem_of_find?_eq_some hf⟩⟩ <;>
          simp [manualFailover, hm, hf]
    | some t =>
      by_cases hreg : (alookup s.controllers t).isNone
      · left; simp [manualFailover, hm, hreg]
      · cases hti : alookup s.controller_info t with
        | none => left; simp [manualFailover, hm, hreg, hti]
        | some i =>
          by_cases hh : i.health_status = HealthStatus.healthy
          · right
            refine ⟨m, t, rfl, ?_, ?_, Or.inl rfl⟩ <;>
              simp [manualFailover, hm, hreg, hti, hh]
          · left; simp [manualFailover, hm, hreg, hti, hh]

theorem stepChecked_preserves_ok (s : CMState) (op : Op)
    (h : ∀ e ∈ s.switch_mappings, mappingOK e.2)
    (hok : (stepChecked s op).2 = true) :
    ∀ e ∈ (stepChecked s op).1.switch_mappings, mappingOK e.2 := by
  cases op with
  | register cid t k a =>
    intro e he
    have h1 : (stepChecked s (Op.register cid t k a)).1 =
        (registerController { s with now := s.now + 1 } cid t k a).1 := rfl
    rw [h1, (registerController_shape { s with now := s.now + 1 } cid t k a).1]
      at he
    exact h e he
  | deregister cid =>
    intro e he
    have h1 : (stepChecked s (Op.deregister cid)).1 =
        (deregisterController { s with now := s.now + 1 } cid).1 := rfl
    rw [h1] at he
    rcases (deregisterController_shape { s with now := s.now + 1 } cid).1 with
      hm | hm
    · rw [hm] at he
      exact h e he
    · rw [hm] at he
      exact h e (mem_removeMappingsFor.mp he).1
  | mapSwitch sw p bl =>
    intro e he
    have h1 : (stepChecked s (Op.mapSwitch sw p bl)).1 =
        (mapSwitchToController { s with now := s.now + 1 } sw p bl).1 := rfl
    rw [h1] at he
    rcases mapSwitchToController_shape { s with now := s.now + 1 } sw p bl with
      hs | ⟨hm, -, -⟩
    · rw [hs] at he
      exact h e he
    · rw [hm] at he
      rcases mem_aupsert he with rfl | hmem
      · exact Or.inl rfl
      · exact h e hmem
  | healthCheck cid ping =>
    intro e he
    have h1 : (stepChecked s (Op.healthCheck cid ping)).1 =
        healthCheckOne { s with now := s.now + 1 } cid ping := rfl
    rw [h1] at he
    exact healthCheckOne_preserves_ok { s with now := s.now + 1 } cid ping h e he
  | manualFailover sw tgt =>
    intro e he
    have h1 : (stepChecked s (Op.manualFailover sw tgt)).1 =
        (manualFailover { s with now := s.now + 1 } sw tgt).1 := rfl
    rw [h1] at he
    rcases manualFailover_shape { s with now := s.now + 1 } sw tgt with
      hs | ⟨m, t, hm, hcommit, hres, hkind⟩
    · rw [hs] at he
      exact h e he
    · rw [hcommit] at he
      rcases hkind with htgt | ⟨htgt, htmem⟩
      · subst htgt
        have hflag : (stepChecked s (Op.manualFailover sw (some t))).2 =
            (!((manualFailover { s with now := s.now + 1 } sw (some t)).2 ==
                CallResult.ok) ||
              decide (t = m.primary_controller ∨ t ∈ m.backup_controllers)) := by
          simp [stepChecked, hm]
        rw [hflag, hres] at hok
        simp only [beq_self_eq_true, Bool.not_true, Bool.false_or,
          decide_eq_true_eq] at hok
        have h0 : ∀ e ∈ ({ s with now := s.now + 1 } :
            CMState).switch_mappings, mappingOK e.2 := h
        exact manualFailoverCommit_preserves_ok { s with now := s.now + 1 }
          sw m t h0 hok e he
      · have h0 : ∀ e ∈ ({ s with now := s.now + 1 } :
            CMState).switch_mappings, mappingOK e.2 := h
        exact manualFailoverCommit_preserves_ok { s with now := s.now + 1 }
          sw m t h0 (Or.inr htmem) e he

theorem foldAcc_false (ops : List Op) : ∀ s : CMState,
    (ops.foldl stepCheckedAcc (s, false)).2 = false := by
  induction ops with
  | nil => intro s; rfl
  | cons op rest ih =>
    intro s
    simpa [stepCheckedAcc] using ih (stepChecked s op).1

theorem foldAcc_preserves_ok (ops : List Op) : ∀ (s : CMState) (b : Bool),
    (∀ e ∈ s.switch_mappings, mappingOK e.2) →
    (ops.foldl stepCheckedAcc (s, b)).2 = true →
    ∀ e ∈ (ops.foldl stepCheckedAcc (s, b)).1.switch_mappings, mappingOK e.2 := by
  induction ops with
  | nil => intro s b h _; exact h
  | cons op rest ih =>
    intro s b h hflag
    by_cases hok : (stepChecked s op).2 = true
    · exact ih _ _ (stepChecked_preserves_ok s op h hok) hflag
    · exfalso
      have hf : (stepChecked s op).2 = false := by
        cases hx : (stepChecked s op).2
        · rfl
        · exact absurd hx hok
      have hstep : stepCheckedAcc (s, b) op = ((stepChecked s op).1, false) := by
        simp [stepCheckedAcc, hf]
      rw [List.foldl_cons, hstep, foldAcc_false rest _] at hflag
      exact Bool.false_ne_true hflag

/-- Claim C1 as stated: at every reachable state — after any trace of
registrations, deregistrations, switch mappings, health-check outcomes
(with automatic failover) and manual failovers with or without an explicit
target — every switch mapping's `current_controller` is the mapping's
`primary_controller` or one of its `backup_controllers`. -/
def claimC1Statement : Prop :=
  ∀ (ops : List Op) (e : String × SwitchMappingM),
    e ∈ (run ops).switch_mappings →
    e.2.current_controller = e.2.primary_controller ∨
    e.2.current_controller ∈ e.2.backup_controllers

/-- The trace of the C1 counterexample: D is registered and healthy but is
neither primary nor backup of switch s1; a manual failover with explicit
target D is accepted (the REST handler only checks that the target exists
and is healthy) and sets `current_controller := D`. -/
def c1trace : List Op :=
  [ Op.register "A" ControllerType.ryu_openflow (BackendKind.ryu false) true
  , Op.register "B" ControllerType.ryu_openflow (BackendKind.ryu false) true
  , Op.register "D" ControllerType.ryu_openflow (BackendKind.ryu false) true
  , Op.healthCheck "D" true
  , Op.mapSwitch "s1" "A" ["B"]
  , Op.manualFailover "s1" (some "D") ]

/-- Counterexample to C1: after `c1trace`, the mapping of s1 has
`current_controller = "D"` with primary "A" and backups ["B"]. -/
theorem mapping_invariant_counterexample : ¬ claimC1Statement := by
  intro hcl
  have h := hcl c1trace
    ("s1", { switch_id := "s1", primary_controller := "A"
             backup_controllers := ["B"], current_controller := "D"
             created_at := 5, last_updated := 6, failover_count := 1 })
    (by decide)
  exact absurd h (by decide)

/-- Claim C1 amended: the invariant `current_controller ∈ {primary} ∪
backups` holds at every reachable state provided every *explicit-target*
manual failover that commits names a target inside the mapping's
primary/backup set (`runChecked` flags exactly the traces with this
discipline); map_switch_to_controller, automatic failover, and manual
failover without an explicit target always preserve it, but the REST
manual-failover handler validates an explicit target only for existence
and health, so an out-of-set explicit target breaks the invariant. -/
theorem mapping_invariant_reachable (ops : List Op)
    (hok : (runChecked ops).2 = true) :
    ∀ e ∈ (runChecked ops).1.switch_mappings,
      e.2.current_controller = e.2.primary_controller ∨
      e.2.current_controller ∈ e.2.backup_controllers := by
  have h := foldAcc_preserves_ok ops initCM true
    (by intro e he; simp [initCM] at he) hok
  exact h

/-- The disciplined trace of the C1 witness: a manual failover without an
explicit target after B became healthy. -/
def c1goodTrace : List Op :=
  [ Op.register "A" ControllerType.ryu_openflow (BackendKind.ryu false) true
  , Op.register "B" ControllerType.ryu_openflow (BackendKind.ryu false) true
  , Op.healthCheck "B" true
  , Op.mapSwitch "s1" "A" ["B"]
  , Op.manualFailover "s1" none ]

/-- Witness for the amended C1 on a concrete disciplined trace. -/
theorem mapping_invariant_reachable_witness :
    (runChecked c1goodTrace).2 = true ∧
    ∀ e ∈ (runChecked c1goodTrace).1.switch_mappings,
      e.2.current_controller = e.2.primary_controller ∨
      e.2.current_controller ∈ e.2.backup_controllers :=
  ⟨by decide, mapping_invariant_reachable c1goodTrace (by decide)⟩

/-! ## Claim C2 -/

/-- Is this publish call a successful-failover event (automatic or manual)
for the given switch? -/
def isFailoverEventFor (sw : String) (p : PubCall) : Bool :=
  (p.event_type == "switch_failover" || p.event_type == "manual_failover") &&
  p.data_switch_id == some sw

/-- Successful failovers recorded for a switch over the whole trace. -/
def countFailoverEvents (sw : String) (pubs : List PubCall) : Nat :=
  (pubs.filter (isFailoverEventFor sw)).length

/-- Is this publish call a failover event for the switch issued strictly
after the given creation time? -/
def isFailoverEventForSince (sw : String) (created : Nat) (p : PubCall) : Bool :=
  isFailoverEventFor sw p && decide (created < p.time)

/-- Successful failovers recorded for a switch since a creation time. -/
def countFailoverEventsSince (sw : String) (created : Nat)
    (pubs : List PubCall) : Nat :=
  (pubs.filter (isFailoverEventForSince sw created)).length

theorem countFE_append_nonfailover (sw : String) (created : Nat)
    (pubs : List PubCall) (p : PubCall)
    (h1 : p.event_type ≠ "switch_failover")
    (h2 : p.event_type ≠ "manual_failover") :
    countFailoverEventsSince sw created (pubs ++ [p]) =
      countFailoverEventsSince sw created pubs := by
  have hp : isFailoverEventForSince sw created p = false := by
    simp [isFailoverEventForSince, isFailoverEventFor, h1, h2]
  simp [countFailoverEventsSince, List.filter_append, hp]

theorem countFE_append_other_switch (sw : String) (created : Nat)
    (pubs : List PubCall) (p : PubCall)
    (h : p.data_switch_id ≠ some sw) :
    countFailoverEventsSince sw created (pubs ++ [p]) =
      countFailoverEventsSince sw created pubs := by
  have hp : isFailoverEventForSince sw created p = false := by
    simp [isFailoverEventForSince, isFailoverEventFor, h]
  simp [countFailoverEventsSince, List.filter_append, hp]

theorem countFE_append_failover_self (sw : String) (created : Nat)
    (pubs : List PubCall) (p : PubCall)
    (hty : p.event_type = "switch_failover" ∨ p.event_type = "manual_failover")
    (hsw : p.data_switch_id = some sw) (ht : created < p.time) :
    countFailoverEventsSince sw created (pubs ++ [p]) =
      countFailoverEventsSince sw created pubs + 1 := by
  have hp : isFailoverEventForSince sw created p = true := by
    rcases hty with hty | hty <;>
      simp [isFailoverEventForSince, isFailoverEventFor, hty, hsw, ht]
  simp [countFailoverEventsSince, List.filter_append, hp]

theorem countFE_zero_of_times_le (sw : String) (created : Nat)
    (pubs : List PubCall) (h : ∀ p ∈ pubs, p.time ≤ created) :
    countFailoverEventsSince sw created pubs = 0 := by
  have : pubs.filter (isFailoverEventForSince sw created) = [] := by
    apply List.filter_eq_nil_iff.mpr
    intro p hp
    have := h p hp
    simp [isFailoverEventForSince, isFailoverEventFor]
    intro _ _
    omega
  simp [countFailoverEventsSince, this]

theorem mem_aupsert_nodup {β : Type} {l : List (String × β)} {k : String}
    {v : β} {e : String × β} (hnd : (l.map (fun x => x.1)).Nodup)
    (he : e ∈ aupsert l k v) : e = (k, v) ∨ (e ∈ l ∧ e.1 ≠ k) := by
  induction l with
  | nil =>
    left
    simpa [aupsert] using he
  | cons f rest ih =>
    obtain ⟨fk, fv⟩ := f
    simp only [List.map_cons, List.nodup_cons] at hnd
    by_cases hfk : fk = k
    · subst hfk
      rcases (by simpa [aupsert] using he) with h | h
      · left
        simp [h]
      · right
        refine ⟨List.mem_cons_of_mem _ h, fun hek => ?_⟩
        exact hnd.1 (hek ▸ List.mem_map.mpr ⟨e, h, rfl⟩)
    · rcases (by simpa [aupsert, hfk] using he) with h | h
      · right
        constructor
        · simp [h]
        · simp [h, hfk]
      · rcases ih hnd.2 h with h' | ⟨h1, h2⟩
        · exact Or.inl h'
        · exact Or.inr ⟨List.mem_cons_of_mem _ h1, h2⟩

/-- The C2 counting invariant over the three state components it reads:
all event times bounded by the clock, all mapping creation times strictly
below the clock, every mapping's `failover_count` equal to the number of
failover events for its switch since its creation, and no duplicate
switch keys. -/
def CountInvOn (maps : List (String × SwitchMappingM)) (pubs : List PubCall)
    (now : Nat) : Prop :=
  (∀ p ∈ pubs, p.time ≤ now) ∧
  (∀ e ∈ maps, e.2.created_at < now) ∧
  (∀ e ∈ maps, e.2.failover_count =
    countFailoverEventsSince e.1 e.2.created_at pubs) ∧
  (maps.map (fun e => e.1)).Nodup

/-- The C2 counting invariant at a reachable state (creation times may
equal the clock: a mapping can be created by the current operation). -/
def CountInv2On (maps : List (String × SwitchMappingM)) (pubs : List PubCall)
    (now : Nat) : Prop :=
  (∀ p ∈ pubs, p.time ≤ now) ∧
  (∀ e ∈ maps, e.2.created_at ≤ now) ∧
  (∀ e ∈ maps, e.2.failover_count =
    countFailoverEventsSince e.1 e.2.created_at pubs) ∧
  (maps.map (fun e => e.1)).Nodup

theorem performSwitchFailover_now (s : CMState) (sw fid : String) :
    (performSwitchFailover s sw fid).now = s.now := by
  cases hm : alookup s.switch_mappings sw with
  | none => simp [performSwitchFailover, hm]
  | some m =>
    cases hf : m.backup_controllers.find?
        (fun b => healthyIn s.controller_info b) with
    | none => simp [performSwitchFailover, hm, hf]
    | some nb => simp [performSwitchFailover, hm, hf, CMState.publish]

theorem foldFailover_now (fid : String) : ∀ (l : List String) (s : CMState),
    (l.foldl (fun st sw => performSwitchFailover st sw fid) s).now = s.now := by
  intro l
  induction l with
  | nil => intro s; rfl
  | cons x rest ih =>
    intro s
    rw [List.foldl_cons, ih, performSwitchFailover_now]

theorem handleControllerFailure_now (s : CMState) (fid : String) :
    (handleControllerFailure s fid).now = s.now := by
  unfold handleControllerFailure
  exact foldFailover_now fid _ s

theorem healthCheckOne_now (s : CMState) (cid : String) (ping : Bool) :
    (healthCheckOne s cid ping).now = s.now := by
  cases hb : alookup s.controllers cid with
  | none => simp [healthCheckOne, hb]
  | some b =>
    cases hcon : (ping && b.connected) with
    | true =>
      cases hi : alookup s.controller_info cid with
      | none => simp [healthCheckOne, hb, hcon, hi]
      | some i => simp [healthCheckOne, hb, hcon, hi]
    | false =>
      cases hi : alookup s.controller_info cid with
      | none => simp [healthCheckOne, hb, hcon, hi]
      | some i =>
        by_cases hth : s.max_health_failures ≤ i.error_count + 1
        · simp [healthCheckOne, hb, hcon, hi, hth, handleControllerFailure_now]
        · simp [healthCheckOne, hb, hcon, hi, hth]

theorem performSwitchFailover_countInv (s : CMState) (sw fid : String)
    (h : CountInvOn s.switch_mappings s.published s.now) :
    CountInvOn (performSwitchFailover s sw fid).switch_mappings
      (performSwitchFailover s sw fid).published s.now := by
  cases hm : alookup s.switch_mappings sw with
  | none =>
    rw [show performSwitchFailover s sw fid = s by
      simp [performSwitchFailover, hm]]
    exact h
  | some m =>
    cases hf : m.backup_controllers.find?
        (fun b => healthyIn s.controller_info b) with
    | none =>
      rw [show performSwitchFailover s sw fid = s by
        simp [performSwitchFailover, hm, hf]]
      exact h
    | some nb =>
      have hmaps : (performSwitchFailover s sw fid).switch_mappings =
          aupsert s.switch_mappings sw
            { m with current_controller := nb
                     failover_count := m.failover_count + 1
                     last_updated := s.now } := by
        simp [performSwitchFailover, hm, hf, CMState.publish]
      have hpubs : (performSwitchFailover s sw fid).published =
          s.published ++ [⟨"switch_failover", "controller_manager", "system",
            3, some sw, s.now⟩] := by
        simp [performSwitchFailover, hm, hf, CMState.publish]
      obtain ⟨hT, hC, hK, hN⟩ := h
      have hmem : (sw, m) ∈ s.switch_mappings := alookup_mem hm
      have hlt : m.created_at < s.now := hC _ hmem
      rw [hmaps, hpubs]
      refine ⟨?_, ?_, ?_, nodup_keys_aupsert _ _ hN⟩
      · intro p hp
        rcases List.mem_append.mp hp with hp | hp
        · exact hT p hp
        · rw [List.mem_singleton.mp hp]
      · intro e he
        rcases mem_aupsert_nodup hN he with rfl | ⟨he', -⟩
        · exact hlt
        · exact hC e he'
      · intro e he
        rcases mem_aupsert_nodup hN he with rfl | ⟨he', hne⟩
        · rw [countFE_append_failover_self _ _ _ _ (Or.inl rfl) rfl hlt]
          rw [hK (sw, m) hmem]
        · rw [countFE_append_other_switch]
          · exact hK e he'
          · intro hq
            exact hne (Option.some.inj hq).symm

theorem foldFailover_countInv (fid : String) : ∀ (l : List String)
    (s : CMState), CountInvOn s.switch_mappings s.published s.now →
    CountInvOn
      (l.foldl (fun st sw => performSwitchFailover st sw fid) s).switch_mappings
      (l.foldl (fun st sw => performSwitchFailover st sw fid) s).published
      s.now := by
  intro l
  induction l with
  | nil => intro s h; exact h
  | cons x rest ih =>
    intro s h
    rw [List.foldl_cons]
    have h1 := performSwitchFailover_countInv s x fid h
    rw [show s.now = (performSwitchFailover s x fid).now from
      (performSwitchFailover_now s x fid).symm] at h1 ⊢
    exact ih _ h1

theorem handleControllerFailure_countInv (s : CMState) (fid : String)
    (h : CountInvOn s.switch_mappings s.published s.now) :
    CountInvOn (handleControllerFailure s fid).switch_mappings
      (handleControllerFailure s fid).published s.now := by
  unfold handleControllerFailure
  exact foldFailover_countInv fid _ s h

theorem healthCheckOne_countInv (s : CMState) (cid : String) (ping : Bool)
    (h : CountInvOn s.switch_mappings s.published s.now) :
    CountInvOn (healthCheckOne s cid ping).switch_mappings
      (healthCheckOne s cid ping).published s.now := by
  rcases healthCheckOne_shape s cid ping with ⟨hm, hp⟩ | ⟨t, hm, hp, ht1, ht2, ht3⟩
  · rw [hm, hp]
    exact h
  · rw [hm, hp]
    have hInvT : CountInvOn t.switch_mappings t.published t.now := by
      rw [ht1, ht2, ht3]
      exact h
    have h2 := handleControllerFailure_countInv t cid hInvT
    rw [ht3] at h2
    exact h2

theorem manualFailoverCommit_countInv (s : CMState) (sw : String)
    (m : SwitchMappingM) (tgt : String)
    (hm : alookup s.switch_mappings sw = some m)
    (h : CountInvOn s.switch_mappings s.published s.now) :
    CountInvOn (manualFailoverCommit s sw m tgt).switch_mappings
      (manualFailoverCommit s sw m tgt).published s.now ∧
    (manualFailoverCommit s sw m tgt).now = s.now := by
  obtain ⟨hT, hC, hK, hN⟩ := h
  have hmem : (sw, m) ∈ s.switch_mappings := alookup_mem hm
  have hlt : m.created_at < s.now := hC _ hmem
  have hmaps : (manualFailoverCommit s sw m tgt).switch_mappings =
      aupsert s.switch_mappings sw
        { m with current_controller := tgt
                 failover_count := m.failover_count + 1
                 last_updated := s.now } := by
    simp [manualFailoverCommit, CMState.publish]
  have hpubs : (manualFailoverCommit s sw m tgt).published =
      s.published ++ [⟨"manual_failover", "controller_manager", "system",
        3, some sw, s.now⟩] := by
    simp [manualFailoverCommit, CMState.publish]
  refine ⟨?_, by simp [manualFailoverCommit, CMState.publish]⟩
  rw [hmaps, hpubs]
  refine ⟨?_, ?_, ?_, nodup_keys_aupsert _ _ hN⟩
  · intro p hp
    rcases List.mem_append.mp hp with hp | hp
    · exact hT p hp
    · rw [List.mem_singleton.mp hp]
  · intro e he
    rcases mem_aupsert_nodup hN he with rfl | ⟨he', -⟩
    · exact hlt
    · exact hC e he'
  · intro e he
    rcases mem_aupsert_nodup hN he with rfl | ⟨he', hne⟩
    · rw [countFE_append_failover_self _ _ _ _ (Or.inr rfl) rfl hlt]
      rw [hK (sw, m) hmem]
    · rw [countFE_append_other_switch]
      · exact hK e he'
      · intro hq
        exact hne (Option.some.inj hq).symm

theorem CountInv2On_of_strict (maps : List (String × SwitchMappingM))
    (pubs : List PubCall) (now : Nat) (h : CountInvOn maps pubs now) :
    CountInv2On maps pubs now :=
  ⟨h.1, fun e he => le_of_lt (h.2.1 e he), h.2.2.1, h.2.2.2⟩

theorem CountInv2On_push (maps : List (String × SwitchMappingM))
    (pubs : List PubCall) (now : Nat) (p : PubCall)
    (h : CountInvOn maps pubs now) (htime : p.time ≤ now)
    (h1 : p.event_type ≠ "switch_failover")
    (h2 : p.event_type ≠ "manual_failover") :
    CountInv2On maps (pubs ++ [p]) now := by
  obtain ⟨hT, hC, hK, hN⟩ := h
  refine ⟨?_, fun e he => le_of_lt (hC e he), ?_, hN⟩
  · intro q hq
    rcases List.mem_append.mp hq with hq | hq
    · exact hT q hq
    · rw [List.mem_singleton.mp hq]
      exact htime
  · intro e he
    rw [countFE_append_nonfailover _ _ _ _ h1 h2]
    exact hK e he

theorem CountInvOn_remove (cid : String)
    (maps : List (String × SwitchMappingM)) (pubs : List PubCall) (now : Nat)
    (h : CountInvOn maps pubs now) :
    CountInvOn (removeMappingsFor cid maps) pubs now := by
  obtain ⟨hT, hC, hK, hN⟩ := h
  exact ⟨hT, fun e he => hC e (mem_removeMappingsFor.mp he).1,
    fun e he => hK e (mem_removeMappingsFor.mp he).1,
    nodup_keys_removeMappingsFor hN⟩

theorem CountInvOn_bump (s : CMState)
    (h : CountInv2On s.switch_mappings s.published s.now) :
    CountInvOn s.switch_mappings s.published (s.now + 1) := by
  obtain ⟨hT, hC, hK, hN⟩ := h
  exact ⟨fun p hp => Nat.le_succ_of_le (hT p hp),
    fun e he => Nat.lt_succ_of_le (hC e he), hK, hN⟩

theorem step_countInv (s : CMState) (op : Op)
    (h : CountInv2On s.switch_mappings s.published s.now) :
    CountInv2On (step s op).switch_mappings (step s op).published
      (step s op).now := by
  have h0 : CountInvOn s.switch_mappings s.published (s.now + 1) :=
    CountInvOn_bump s h
  cases op with
  | register cid t k a =>
    have e1 : step s (Op.register cid t k a) =
        (registerController { s with now := s.now + 1 } cid t k a).1 := rfl
    obtain ⟨hmapsE, hnowE, hpubsD⟩ :=
      registerController_shape { s with now := s.now + 1 } cid t k a
    rw [e1, hmapsE, hnowE]
    rcases hpubsD with hp | hp <;> rw [hp]
    · exact CountInv2On_of_strict _ _ _ h0
    · exact CountInv2On_push _ _ _ _ h0 (le_refl _)
        (by decide : ("controller_registered" : String) ≠ "switch_failover")
        (by decide : ("controller_registered" : String) ≠ "manual_failover")
  | deregister cid =>
    have e1 : step s (Op.deregister cid) =
        (deregisterController { s with now := s.now + 1 } cid).1 := rfl
    obtain ⟨hmapsD, hnowE, hpubsD⟩ :=
      deregisterController_shape { s with now := s.now + 1 } cid
    rw [e1, hnowE]
    rcases hmapsD with hm | hm <;> rcases hpubsD with hp | hp <;> rw [hm, hp]
    · exact CountInv2On_of_strict _ _ _ h0
    · exact CountInv2On_push _ _ _ _ h0 (le_refl _)
        (by decide : ("controller_deregistered" : String) ≠ "switch_failover")
        (by decide : ("controller_deregistered" : String) ≠ "manual_failover")
    · exact CountInv2On_of_strict _ _ _ (CountInvOn_remove cid _ _ _ h0)
    · exact CountInv2On_push _ _ _ _ (CountInvOn_remove cid _ _ _ h0)
        (le_refl _)
        (by decide : ("controller_deregistered" : String) ≠ "switch_failover")
        (by decide : ("controller_deregistered" : String) ≠ "manual_failover")
  | mapSwitch sw p bl =>
    have e1 : step s (Op.mapSwitch sw p bl) =
        (mapSwitchToController { s with now := s.now + 1 } sw p bl).1 := rfl
    rcases mapSwitchToController_shape { s with now := s.now + 1 } sw p bl with
      hs | ⟨hm, hn, hp⟩
    · rw [e1, hs]
      exact CountInv2On_of_strict _ _ _ h0
    · rw [e1, hm, hn, hp]
      obtain ⟨hT, hC, hK, hN⟩ := h0
      refine ⟨?_, ?_, ?_, nodup_keys_aupsert _ _ hN⟩
      · intro q hq
        rcases List.mem_append.mp hq with hq | hq
        · exact hT q hq
        · rw [List.mem_singleton.mp hq]
      · intro e he
        rcases mem_aupsert_nodup hN he with rfl | ⟨he', -⟩
        · exact le_refl _
        · exact le_of_lt (hC e he')
      · intro e he
        rcases mem_aupsert_nodup hN he with rfl | ⟨he', hne⟩
        · rw [countFE_zero_of_times_le]
          intro q hq
          rcases List.mem_append.mp hq with hq | hq
          · exact hT q hq
          · rw [List.mem_singleton.mp hq]
        · rw [countFE_append_nonfailover _ _ _ _
            (by decide : ("switch_mapped" : String) ≠ "switch_failover")
            (by decide : ("switch_mapped" : String) ≠ "manual_failover")]
          exact hK e he'
  | healthCheck cid ping =>
    have e1 : step s (Op.healthCheck cid ping) =
        healthCheckOne { s with now := s.now + 1 } cid ping := rfl
    have h2 := healthCheckOne_countInv { s with now := s.now + 1 } cid ping h0
    rw [e1, healthCheckOne_now]
    exact CountInv2On_of_strict _ _ _ h2
  | manualFailover sw tgt =>
    have e1 : step s (Op.manualFailover sw tgt) =
        (manualFailover { s with now := s.now + 1 } sw tgt).1 := rfl
    rcases manualFailover_shape { s with now := s.now + 1 } sw tgt with
      hs | ⟨m, t, hm, hcommit, -, -⟩
    · rw [e1, hs]
      exact CountInv2On_of_strict _ _ _ h0
    · rw [e1, hcommit]
      have hcc := manualFailoverCommit_countInv { s with now := s.now + 1 }
        sw m t hm h0
      rw [hcc.2]
      exact CountInv2On_of_strict _ _ _ hcc.1

theorem run_countInv_aux (ops : List Op) : ∀ s : CMState,
    CountInv2On s.switch_mappings s.published s.now →
    CountInv2On (ops.foldl step s).switch_mappings
      (ops.foldl step s).published (ops.foldl step s).now := by
  induction ops with
  | nil => intro s h; exact h
  | cons op rest ih =>
    intro s h
    rw [List.foldl_cons]
    exact ih _ (step_countInv s op h)

theorem run_countInv (ops : List Op) :
    CountInv2On (run ops).switch_mappings (run ops).published (run ops).now := by
  apply run_countInv_aux ops initCM
  refine ⟨?_, ?_, ?_, ?_⟩ <;> simp [initCM]

theorem performSwitchFailover_lookup_mono (s : CMState) (sw0 fid sw : String)
    (m1 : SwitchMappingM)
    (h1 : alookup (performSwitchFailover s sw0 fid).switch_mappings sw =
      some m1) :
    ∃ m0, alookup s.switch_mappings sw = some m0 ∧
      m0.failover_count ≤ m1.failover_count := by
  cases hm : alookup s.switch_mappings sw0 with
  | none =>
    rw [show performSwitchFailover s sw0 fid = s by
      simp [performSwitchFailover, hm]] at h1
    exact ⟨m1, h1, le_refl _⟩
  | some m =>
    cases hf : m.backup_controllers.find?
        (fun b => healthyIn s.controller_info b) with
    | none =>
      rw [show performSwitchFailover s sw0 fid = s by
        simp [performSwitchFailover, hm, hf]] at h1
      exact ⟨m1, h1, le_refl _⟩
    | some nb =>
      rw [show (performSwitchFailover s sw0 fid).switch_mappings =
          aupsert s.switch_mappings sw0
            { m with current_controller := nb
                     failover_count := m.failover_count + 1
                     last_updated := s.now } by
        simp [performSwitchFailover, hm, hf, CMState.publish]] at h1
      rw [alookup_aupsert] at h1
      by_cases hsw : sw0 = sw
      · rw [if_pos hsw] at h1
        subst hsw
        refine ⟨m, hm, ?_⟩
        injection h1 with h2
        rw [← h2]
        exact Nat.le_succ _
      · rw [if_neg hsw] at h1
        exact ⟨m1, h1, le_refl _⟩

theorem foldFailover_lookup_mono (fid : String) : ∀ (l : List String)
    (s : CMState) (sw : String) (m1 : SwitchMappingM),
    alookup (l.foldl (fun st sw' => performSwitchFailover st sw' fid)
      s).switch_mappings sw = some m1 →
    ∃ m0, alookup s.switch_mappings sw = some m0 ∧
      m0.failover_count ≤ m1.failover_count := by
  intro l
  induction l with
  | nil => intro s sw m1 h1; exact ⟨m1, h1, le_refl _⟩
  | cons x rest ih =>
    intro s sw m1 h1
    rw [List.foldl_cons] at h1
    obtain ⟨mid, hmid, hle1⟩ := ih _ sw m1 h1
    obtain ⟨m0, hm0, hle0⟩ := performSwitchFailover_lookup_mono s x fid sw mid hmid
    exact ⟨m0, hm0, le_trans hle0 hle1⟩

theorem handleControllerFailure_lookup_mono (s : CMState) (fid sw : String)
    (m1 : SwitchMappingM)
    (h1 : alookup (handleControllerFailure s fid).switch_mappings sw =
      some m1) :
    ∃ m0, alookup s.switch_mappings sw = some m0 ∧
      m0.failover_count ≤ m1.failover_count := by
  unfold handleControllerFailure at h1
  exact foldFailover_lookup_mono fid _ s sw m1 h1

theorem step_count_mono (s : CMState) (op : Op) (sw : String)
    (m m1 : SwitchMappingM)
    (hnd : (s.switch_mappings.map (fun e => e.1)).Nodup)
    (hop : ∀ p bl, op ≠ Op.mapSwitch sw p bl)
    (h : alookup s.switch_mappings sw = some m)
    (h1 : alookup (step s op).switch_mappings sw = some m1) :
    m.failover_count ≤ m1.failover_count := by
  cases op with
  | register cid t k a =>
    have e1 : step s (Op.register cid t k a) =
        (registerController { s with now := s.now + 1 } cid t k a).1 := rfl
    rw [e1, (registerController_shape { s with now := s.now + 1 } cid t k a).1]
      at h1
    have h1' : alookup s.switch_mappings sw = some m1 := h1
    rw [h] at h1'
    injection h1' with h2
    rw [h2]
  | deregister cid =>
    have e1 : step s (Op.deregister cid) =
        (deregisterController { s with now := s.now + 1 } cid).1 := rfl
    rw [e1] at h1
    rcases (deregisterController_shape { s with now := s.now + 1 } cid).1 with
      hmaps | hmaps
    · rw [hmaps] at h1
      have h1' : alookup s.switch_mappings sw = some m1 := h1
      rw [h] at h1'
      injection h1' with h2
      rw [h2]
    · rw [hmaps] at h1
      have hnd0 : ((({ s with now := s.now + 1 } :
          CMState).switch_mappings).map (fun e => e.1)).Nodup := hnd
      have h1' : alookup s.switch_mappings sw = some m1 :=
        alookup_removeMappingsFor_nodup hnd0 h1
      rw [h] at h1'
      injection h1' with h2
      rw [h2]
  | mapSwitch sw' p bl =>
    have hsw : ¬sw' = sw := by
      intro hq
      exact hop p bl (by rw [hq])
    have e1 : step s (Op.mapSwitch sw' p bl) =
        (mapSwitchToController { s with now := s.now + 1 } sw' p bl).1 := rfl
    rw [e1] at h1
    rcases mapSwitchToController_shape { s with now := s.now + 1 } sw' p bl with
      hs | ⟨hmaps, -, -⟩
    · rw [hs] at h1
      have h1' : alookup s.switch_mappings sw = some m1 := h1
      rw [h] at h1'
      injection h1' with h2
      rw [h2]
    · rw [hmaps, alookup_aupsert, if_neg hsw] at h1
      have h1' : alookup s.switch_mappings sw = some m1 := h1
      rw [h] at h1'
      injection h1' with h2
      rw [h2]
  | healthCheck cid ping =>
    have e1 : step s (Op.healthCheck cid ping) =
        healthCheckOne { s with now := s.now + 1 } cid ping := rfl
    rw [e1] at h1
    rcases healthCheckOne_shape { s with now := s.now + 1 } cid ping with
      ⟨hmaps, -⟩ | ⟨t, hmaps, -, ht1, -, -⟩
    · rw [hmaps] at h1
      have h1' : alookup s.switch_mappings sw = some m1 := h1
      rw [h] at h1'
      injection h1' with h2
      rw [h2]
    · rw [hmaps] at h1
      obtain ⟨m0, hm0, hle⟩ :=
        handleControllerFailure_lookup_mono t cid sw m1 h1
      rw [ht1] at hm0
      have hm0' : alookup s.switch_mappings sw = some m0 := hm0
      rw [h] at hm0'
      injection hm0' with h2
      rw [h2]
      exact hle
  | manualFailover sw' tgt =>
    have e1 : step s (Op.manualFailover sw' tgt) =
        (manualFailover { s with now := s.now + 1 } sw' tgt).1 := rfl
    rw [e1] at h1
    rcases manualFailover_shape { s with now := s.now + 1 } sw' tgt with
      hs | ⟨mm, t, hmm, hcommit, -, -⟩
    · rw [hs] at h1
      have h1' : alookup s.switch_mappings sw = some m1 := h1
      rw [h] at h1'
      injection h1' with h2
      rw [h2]
    · rw [hcommit] at h1
      rw [show (manualFailoverCommit { s with now := s.now + 1 } sw' mm
          t).switch_mappings =
          aupsert ({ s with now := s.now + 1 } : CMState).switch_mappings sw'
            { mm with current_controller := t
                      failover_count := mm.failover_count + 1
                      last_updated := ({ s with now := s.now + 1 } :
                        CMState).now } by
        simp [manualFailoverCommit, CMState.publish]] at h1
      rw [alookup_aupsert] at h1
      by_cases hsw : sw' = sw
      · rw [if_pos hsw] at h1
        subst hsw
        have hmm' : alookup s.switch_mappings sw' = some mm := hmm
        rw [h] at hmm'
        injection hmm' with h3
        injection h1 with h2
        rw [h3, ← h2]
        exact Nat.le_succ _
      · rw [if_neg hsw] at h1
        have h1' : alookup s.switch_mappings sw = some m1 := h1
        rw [h] at h1'
        injection h1' with h2
        rw [h2]

theorem run_snoc (ops : List Op) (op : Op) :
    run (ops ++ [op]) = step (run ops) op := by
  simp [run, List.foldl_append]

/-- Claim C2 as stated: after N successful failovers on a switch (counted
by the failover events the engine publishes for it), the mapping's
`failover_count` equals N over the whole trace, and across any single
further operation — including `map_switch_to_controller` on the same
switch — the count never decreases. -/
def claimC2Statement : Prop :=
  (∀ (ops : List Op) (sw : String) (m : SwitchMappingM),
    alookup (run ops).switch_mappings sw = some m →
    m.failover_count = countFailoverEvents sw (run ops).published) ∧
  (∀ (ops : List Op) (op : Op) (sw : String) (m m1 : SwitchMappingM),
    alookup (run ops).switch_mappings sw = some m →
    alookup (run (ops ++ [op])).switch_mappings sw = some m1 →
    m.failover_count ≤ m1.failover_count)

/-- Trace of the C2 counterexample: one successful manual failover on s1
(count 1), before s1 is re-mapped. -/
def c2trace : List Op :=
  [ Op.register "A" ControllerType.ryu_openflow (BackendKind.ryu false) true
  , Op.register "B" ControllerType.ryu_openflow (BackendKind.ryu false) true
  , Op.healthCheck "B" true
  , Op.mapSwitch "s1" "A" ["B"]
  , Op.manualFailover "s1" none ]

/-- The mapping of s1 after `c2trace`: one failover recorded. -/
def c2map1 : SwitchMappingM :=
  { switch_id := "s1", primary_controller := "A"
    backup_controllers := ["B"], current_controller := "B"
    created_at := 4, last_updated := 5, failover_count := 1 }

/-- Counterexample to C2: re-mapping s1 with `map_switch_to_controller`
overwrites the mapping with a fresh one whose `failover_count` is 0, so the
count decreases from 1 to 0 (and no longer equals the number of successful
failovers performed on s1). -/
theorem failover_count_monotone_counterexample : ¬ claimC2Statement := by
  intro hcl
  have h := hcl.2 c2trace (Op.mapSwitch "s1" "A" ["B"]) "s1" c2map1
    { switch_id := "s1", primary_controller := "A"
      backup_controllers := ["B"], current_controller := "A"
      created_at := 6, last_updated := 6, failover_count := 0 }
    (by decide) (by decide)
  exact absurd h (by decide)

/-- Claim C2 amended: a mapping's `failover_count` equals the number of
successful failovers (automatic `switch_failover` or `manual_failover`
events) published for its switch *since the mapping's creation*, and the
count never decreases across any operation other than a
`map_switch_to_controller` call on that same switch — such a call
overwrites the mapping with a fresh record whose `failover_count` restarts
at 0. -/
theorem failover_count_tracks_events :
    (∀ (ops : List Op) (sw : String) (m : SwitchMappingM),
      alookup (run ops).switch_mappings sw = some m →
      m.failover_count =
        countFailoverEventsSince sw m.created_at (run ops).published) ∧
    (∀ (ops : List Op) (op : Op) (sw : String) (m m1 : SwitchMappingM),
      (∀ p bl, op ≠ Op.mapSwitch sw p bl) →
      alookup (run ops).switch_mappings sw = some m →
      alookup (run (ops ++ [op])).switch_mappings sw = some m1 →
      m.failover_count ≤ m1.failover_count) := by
  constructor
  · intro ops sw m hm
    exact (run_countInv ops).2.2.1 (sw, m) (alookup_mem hm)
  · intro ops op sw m m1 hop hm hm1
    rw [run_snoc] at hm1
    exact step_count_mono (run ops) op sw m m1 (run_countInv ops).2.2.2
      hop hm hm1

/-- Witness for the amended C2 on `c2trace`: the count 1 equals the one
failover event published for s1 since the mapping was created, and it does
not decrease across a further non-remap operation. -/
theorem failover_count_tracks_events_witness :
    c2map1.failover_count =
      countFailoverEventsSince "s1" c2map1.created_at (run c2trace).published ∧
    c2map1.failover_count ≤ c2map1.failover_count :=
  ⟨failover_count_tracks_events.1 c2trace "s1" c2map1 (by decide),
   failover_count_tracks_events.2 c2trace (Op.healthCheck "A" true) "s1"
     c2map1 c2map1 (fun p bl hq => Op.noConfusion hq) (by decide) (by decide)⟩
